import Mathlib

/-!
# Verification of the WatermelonDB DataStore adapter core

A shallow embedding of `src/WatermelonDBAdapter.ts` (the storage-adapter shim
between Amplify DataStore and WatermelonDB).  JavaScript strings are Lean
`String`s, JavaScript `Map`/object property tables are association lists kept
in insertion order (which is exactly the iteration-order guarantee of a JS
`Map` and of plain objects with string keys), JavaScript numbers that the
adapter uses (timestamps from `Date.now()`, version counters, retry counts)
are `Nat`, and fallible code returns `Except String` carrying the source's
error messages.  External capabilities (the native WatermelonDB query engine,
the four backend constructors, RxJS) enter as explicit function parameters.
-/

namespace WatermelonAdapter

/-! ## JavaScript values

The adapter moves opaque JavaScript values between models, records and the
query cache.  `JSVal` models the value shapes the adapter actually touches:
primitives, arrays, and function values (predicates are functions; distinct
functions are distinguished by a tag).  `vundefined` is JavaScript's
`undefined`. -/

inductive JSVal where
  | vundefined
  | vnull
  | vbool (b : Bool)
  | vnum (n : Nat)
  | vstr (s : String)
  | vfun (tag : Nat)
  | varr (elems : List JSVal)
  deriving Repr

/-- JavaScript truthiness of an optional property (`undefined`, `null`, `0`,
`""` and `false` are falsy), used by the source's `if (!record._raw.created_at)`
and `if (firstKey)` and `predicate ? … : ''` checks. -/
def truthy : Option JSVal → Bool
  | none => false
  | some .vundefined => false
  | some .vnull => false
  | some (.vbool b) => b
  | some (.vnum n) => n != 0
  | some (.vstr s) => s != ""
  | some (.vfun _) => true
  | some (.varr _) => true

mutual

/-- `JSON.stringify` as the adapter relies on it: a function value (and
`undefined`) serializes to the *value* `undefined`, modelled as `none`; inside
an array such elements render as `"null"`.  Object/string escaping details are
irrelevant to the adapter and kept minimal; the function is total and
deterministic, which is all the cache-key construction depends on. -/
def jsonStringify : JSVal → Option String
  | .vundefined => none
  | .vfun _ => none
  | .vnull => some "null"
  | .vbool b => some (if b then "true" else "false")
  | .vnum n => some (toString n)
  | .vstr s => some ("\x22" ++ s ++ "\x22")
  | .varr l => some ("[" ++ String.intercalate "," (jsonStringifyElems l) ++ "]")

/-- Array elements under `JSON.stringify`: `undefined`/functions become `"null"`. -/
def jsonStringifyElems : List JSVal → List String
  | [] => []
  | v :: rest => (jsonStringify v).getD "null" :: jsonStringifyElems rest

end

/-- Template-literal interpolation of a possibly-`undefined` string value:
`` `${undefined}` `` renders as the text `"undefined"`. -/
def jsTemplate (v : Option String) : String := v.getD "undefined"

/-! ## Insertion-ordered key/value tables

A JS `Map` (and a plain object with string keys) iterates in insertion order,
`set` of an existing key updates in place keeping its position, `set` of a new
key appends, `delete` removes the single entry with that key. -/

/-- `Map.get` / object property read. -/
def lookupKey {α : Type} (k : String) : List (String × α) → Option α
  | [] => none
  | kv :: rest => if kv.1 = k then some kv.2 else lookupKey k rest

/-- `Map.set` / object property write: update in place or append. -/
def mapSet {α : Type} (k : String) (v : α) : List (String × α) → List (String × α)
  | [] => [(k, v)]
  | kv :: rest => if kv.1 = k then (k, v) :: rest else kv :: mapSet k v rest

/-- `Map.delete`: remove the entry with key `k` (keys are unique in a `Map`). -/
def mapDelete {α : Type} (k : String) : List (String × α) → List (String × α)
  | [] => []
  | kv :: rest => if kv.1 = k then rest else kv :: mapDelete k rest

@[simp] theorem lookupKey_nil {α : Type} (k : String) :
    lookupKey (α := α) k [] = none := rfl

@[simp] theorem lookupKey_cons {α : Type} (k : String) (kv : String × α)
    (rest : List (String × α)) :
    lookupKey k (kv :: rest) = if kv.1 = k then some kv.2 else lookupKey k rest := rfl

theorem lookupKey_mapSet_self {α : Type} (k : String) (v : α)
    (m : List (String × α)) : lookupKey k (mapSet k v m) = some v := by
  induction m with
  | nil => simp [mapSet]
  | cons kv rest ih =>
    by_cases h : kv.1 = k <;> simp [mapSet, h, ih]

theorem lookupKey_mapSet_ne {α : Type} {k k' : String} (h : k' ≠ k) (v : α)
    (m : List (String × α)) : lookupKey k (mapSet k' v m) = lookupKey k m := by
  induction m with
  | nil => simp [mapSet, h]
  | cons kv rest ih =>
    by_cases hk : kv.1 = k'
    · simp [mapSet, hk, h]
    · simp [mapSet, hk, ih]

theorem lookupKey_append {α : Type} (k : String) (m₁ m₂ : List (String × α)) :
    lookupKey k (m₁ ++ m₂) =
      (lookupKey k m₁).orElse (fun _ => lookupKey k m₂) := by
  induction m₁ with
  | nil => simp
  | cons kv rest ih =>
    by_cases h : kv.1 = k <;> simp [h, ih, Option.orElse]

/-- When the key is absent, `Map.set` appends a fresh entry at the end. -/
theorem mapSet_eq_append {α : Type} {k : String} {m : List (String × α)}
    (h : lookupKey k m = none) (v : α) : mapSet k v m = m ++ [(k, v)] := by
  induction m with
  | nil => rfl
  | cons kv rest ih =>
    by_cases hk : kv.1 = k
    · simp [hk] at h
    · simp only [lookupKey_cons, hk, if_false] at h
      simp [mapSet, hk, ih h]

theorem mapSet_length_le {α : Type} (k : String) (v : α) (m : List (String × α)) :
    (mapSet k v m).length ≤ m.length + 1 := by
  induction m with
  | nil => simp [mapSet]
  | cons kv rest ih =>
    by_cases h : kv.1 = k
    · simp [mapSet, h]
    · simp only [mapSet, h, if_false, List.length_cons]
      omega

theorem lookupKey_eq_none_of_not_mem {α : Type} {k : String}
    {m : List (String × α)} (h : k ∉ m.map Prod.fst) : lookupKey k m = none := by
  induction m with
  | nil => rfl
  | cons kv rest ih =>
    simp only [List.map_cons, List.mem_cons, not_or] at h
    have hne : kv.1 ≠ k := fun hc => h.1 hc.symm
    simp [hne, ih h.2]

theorem lookupKey_mapDelete_self {α : Type} {k : String}
    {m : List (String × α)} (hnd : (m.map Prod.fst).Nodup) :
    lookupKey k (mapDelete k m) = none := by
  induction m with
  | nil => rfl
  | cons kv rest ih =>
    simp only [List.map_cons, List.nodup_cons] at hnd
    by_cases hk : kv.1 = k
    · simp only [mapDelete, hk, if_true]
      exact lookupKey_eq_none_of_not_mem (by rw [← hk]; exact hnd.1)
    · simp [mapDelete, hk, ih hnd.2]

/-! ## Name-style conversion (`toSnakeCase` / `toCamelCase`)

Source:
  toSnakeCase: `str.replace(/[A-Z]/g, l => "_" + l.toLowerCase()).replace(/^_/, "")`
  toCamelCase: `str.replace(/_([a-z])/g, (m, l) => l.toUpperCase())`
The regex character classes are ASCII; the case maps are applied only to
matched ASCII letters, so they are embedded directly as arithmetic on code
points. -/

/-- The regex class `[A-Z]`. -/
def isAsciiUpper (c : Char) : Bool := 65 ≤ c.toNat && c.toNat ≤ 90

/-- The regex class `[a-z]`. -/
def isAsciiLower (c : Char) : Bool := 97 ≤ c.toNat && c.toNat ≤ 122

/-- `String.prototype.toLowerCase` restricted to ASCII letters (the only
inputs the adapter feeds it are regex-matched `[A-Z]` characters and model
names). -/
def lowerChar (c : Char) : Char :=
  if 65 ≤ c.toNat ∧ c.toNat ≤ 90 then Char.ofNat (c.toNat + 32) else c

/-- `String.prototype.toUpperCase` restricted to ASCII letters. -/
def upperChar (c : Char) : Char :=
  if 97 ≤ c.toNat ∧ c.toNat ≤ 122 then Char.ofNat (c.toNat - 32) else c

/-- One step of the `[A-Z]` → `_x` global replacement. -/
def snakeChar (c : Char) : List Char :=
  if isAsciiUpper c then ['_', lowerChar c] else [c]

/-- The whole `/[A-Z]/g` replacement pass. -/
def snakeChars : List Char → List Char
  | [] => []
  | c :: rest => snakeChar c ++ snakeChars rest

/-- The `/^_/` replacement: strip one leading underscore. -/
def stripLeadingUnderscore : List Char → List Char
  | '_' :: rest => rest
  | s => s

/-- Does the regex `_([a-z])` match at the current scan position? -/
def camelMatchesAt (c : Char) (rest : List Char) : Bool :=
  c = '_' && (match rest with | c2 :: _ => isAsciiLower c2 | [] => false)

/-- `/_([a-z])/g` global replacement: a left-to-right scan; a match consumes
two characters (emitting the letter uppercased), a failed attempt advances
one position. -/
def camelChars : List Char → List Char
  | [] => []
  | c :: rest =>
    if camelMatchesAt c rest then
      match rest with
      | c2 :: rest2 => upperChar c2 :: camelChars rest2
      | [] => []
    else c :: camelChars rest

def toSnakeCase (s : String) : String :=
  ⟨stripLeadingUnderscore (snakeChars s.data)⟩

def toCamelCase (s : String) : String :=
  ⟨camelChars s.data⟩

/-- `getTableName`: `modelName.toLowerCase()`. -/
def getTableName (modelName : String) : String :=
  ⟨modelName.data.map lowerChar⟩

/-! ## Query cache

`queryCache : Map<string, { result; timestamp }>` with TTL expiry evaluated
lazily at lookup and oldest-insertion eviction at capacity.  The cache is
parametric in the result type (the source stores `any`). -/

structure CacheEntry (α : Type) where
  result : α
  timestamp : Nat
  deriving Repr, DecidableEq

/-- The adapter's in-memory query cache: a JS `Map` in insertion order. -/
abbrev QueryCache (α : Type) := List (String × CacheEntry α)

/-- `getCacheKey(tableName, predicate?, pagination?)`:
`tableName + ":" + (predicate ? JSON.stringify(predicate) : "") + ":" + …`.
`JSON.stringify` of a function predicate is the value `undefined`, which the
template literal renders as the text `"undefined"`. -/
def getCacheKey (tableName : String) (predicate pagination : Option JSVal) : String :=
  let predicateStr : Option String :=
    if truthy predicate then jsonStringify (predicate.getD .vundefined) else some ""
  let paginationStr : Option String :=
    if truthy pagination then jsonStringify (pagination.getD .vundefined) else some ""
  tableName ++ ":" ++ jsTemplate predicateStr ++ ":" ++ jsTemplate paginationStr

/-- `getFromCache(key)`: miss on absent key; on a present key, an entry older
than the TTL is deleted (the lazy-expiry side effect) and reported as a miss;
otherwise the stored result is returned.  `now` is `Date.now()`; the source's
`now - cached.timestamp > this.cacheTTL` on JS numbers agrees with truncated
`Nat` subtraction because a non-positive difference is never `> cacheTTL`. -/
def getFromCache {α : Type} (cacheTTL now : Nat) (key : String)
    (cache : QueryCache α) : Option α × QueryCache α :=
  match lookupKey key cache with
  | none => (none, cache)
  | some cached =>
    if now - cached.timestamp > cacheTTL then (none, mapDelete key cache)
    else (some cached.result, cache)

/-- `setCache(key, value)`: when `size >= maxCacheSize`, delete the first key
in iteration order (the source guards with `if (firstKey)`, a truthiness check
that also skips an empty-string key), then insert with a fresh timestamp. -/
def setCache {α : Type} (maxCacheSize now : Nat) (key : String) (value : α)
    (cache : QueryCache α) : QueryCache α :=
  let cache1 :=
    if cache.length ≥ maxCacheSize then
      match cache.head? with
      | some kv => if kv.1 ≠ "" then mapDelete kv.1 cache else cache
      | none => cache
    else cache
  mapSet key { result := value, timestamp := now } cache1

/-- `invalidateTableCache(tableName)`: drop every key with prefix `tableName + ":"`. -/
def invalidateTableCache {α : Type} (tableName : String)
    (cache : QueryCache α) : QueryCache α :=
  cache.filter (fun kv => ¬ kv.1.startsWith (tableName ++ ":"))

/-! ## Conflict resolution (`getConflictHandler`) -/

/-- DataStore's `OpType` sentinels. -/
inductive OpType where
  | INSERT
  | UPDATE
  | DELETE
  deriving Repr, DecidableEq

/-- The two resolutions the returned handler can produce. -/
inductive ConflictResolution where
  | ACCEPT_REMOTE
  | RETRY_LOCAL
  deriving Repr, DecidableEq

/-- The slice of a model the conflict handler reads: `_version` and
`_lastChangedAt`, each possibly absent (the source defaults both with
`|| 0`, which maps `undefined`, `null` and `0` alike to `0`). -/
structure ConflictModel where
  version : Option Nat
  lastChangedAt : Option Nat
  deriving Repr

/-- The resolution function returned by `getConflictHandler()`:
attempts > 3 ⇒ remote; DELETE ⇒ remote; else version counters, then
last-changed timestamps, defaulting to retrying local. -/
def conflictHandler (localModel remoteModel : ConflictModel) (operation : OpType)
    (attempts : Nat) : ConflictResolution :=
  if attempts > 3 then .ACCEPT_REMOTE
  else if operation = .DELETE then .ACCEPT_REMOTE
  else
    let localVersion := localModel.version.getD 0
    let remoteVersion := remoteModel.version.getD 0
    if remoteVersion > localVersion then .ACCEPT_REMOTE
    else if localVersion > remoteVersion then .RETRY_LOCAL
    else
      let localTimestamp := localModel.lastChangedAt.getD 0
      let remoteTimestamp := remoteModel.lastChangedAt.getD 0
      if remoteTimestamp > localTimestamp then .ACCEPT_REMOTE
      else .RETRY_LOCAL

/-! ## Records and `save`

A WatermelonDB record is its `id`, its `_raw` column row, and — because
JavaScript assignment to a name with no accessor defined on the prototype
chain simply creates a plain own property — a separate table of plain own
properties that live *outside* `_raw`.  Writes through `record[name] = value`
reach `_raw` only when `name` is a property with a decorated setter, and the
dynamic model classes register those setters under the *camelCase* field
names (`addFieldDecorators`), while the copy loop assigns snake-cased column
names; the two agree only for names that snake-case to themselves. -/

structure WRecord where
  id : String
  raw : List (String × JSVal)
  props : List (String × JSVal)
  deriving Repr

/-- A decorated property on a dynamic model class: the `_raw` column its
setter writes, and whether the decorator is wrapped in `readonly` (whose
setter throws on assignment). -/
structure FieldSetter where
  column : String
  readOnly : Bool
  deriving Repr, DecidableEq

/-- The per-field half of `addFieldDecorators`: one decorated property per
non-`id` schema field, registered under the *field name itself* (camelCase,
exactly as declared) and writing the snake-cased column — the `field`/`text`
/`date` decorator choice does not change the target column.  Association
fields (relation/children decorators, targeting `…_id` columns or
getter-only query properties) are outside the claims and omitted. -/
def fieldDecoratorRegistry (schemaFieldNames : List String) :
    List (String × FieldSetter) :=
  schemaFieldNames.foldl
    (fun acc fieldName =>
      if fieldName = "id" then acc
      else mapSet fieldName ⟨toSnakeCase fieldName, false⟩ acc)
    []

/-- `addFieldDecorators`: the complete prototype property registry of a
generated model class — the per-field decorators followed by the five fixed
sync properties (`_version`, `_deleted`, `_lastChangedAt`, `createdAt`
read-only, `updatedAt`), each `Object.defineProperty` overriding any earlier
registration of the same name (`mapSet` update-in-place). -/
def addFieldDecorators (schemaFieldNames : List String) :
    List (String × FieldSetter) :=
  mapSet "updatedAt" ⟨"updated_at", false⟩
    (mapSet "createdAt" ⟨"created_at", true⟩
      (mapSet "_lastChangedAt" ⟨"_last_changed_at", true⟩
        (mapSet "_deleted" ⟨"_deleted", true⟩
          (mapSet "_version" ⟨"_version", true⟩
            (fieldDecoratorRegistry schemaFieldNames)))))

/-- JavaScript assignment `record[name] = value` in the copy loop's
`try { record[columnName] = value } catch { record._raw[columnName] = value }`:
a non-readonly decorated setter at `name` writes its column into `_raw`; a
`readonly` setter throws and the `catch` writes `_raw[name]` directly; with
no decorated property at `name` the assignment creates a plain own property
outside `_raw` and never throws, so the `catch` does not fire.  Returns the
updated `(raw, props)` pair. -/
def recordAssign (setters : List (String × FieldSetter)) (name : String)
    (v : JSVal) (raw props : List (String × JSVal)) :
    List (String × JSVal) × List (String × JSVal) :=
  match lookupKey name setters with
  | some s =>
    if s.readOnly then (mapSet name v raw, props)
    else (mapSet s.column v raw, props)
  | none => (raw, mapSet name v props)

/-- The model instance passed to `save`: its `id` plus its `Object.entries`
(which may themselves include an `id` entry — the copy loop skips it). -/
structure SaveModel where
  id : String
  fields : List (String × JSVal)
  deriving Repr

/-- `copyModelToRecord(model, record)`: for every entry except `id` and
`constructor`, the sync keys `_version`/`_deleted`/`_lastChangedAt` are
written into `_raw` under their snake-cased name directly, and every other
entry is assigned through `record[toSnakeCase key] = value` (see
`recordAssign`); then the timestamps are stamped on `_raw`: `created_at`
only if falsy (`if (!record._raw.created_at)`), `updated_at` always. -/
def copyModelToRecord (setters : List (String × FieldSetter)) (model : SaveModel)
    (now : Nat) (raw props : List (String × JSVal)) :
    List (String × JSVal) × List (String × JSVal) :=
  let st := model.fields.foldl
    (fun acc kv =>
      if kv.1 = "id" ∨ kv.1 = "constructor" then acc
      else if kv.1 = "_version" ∨ kv.1 = "_deleted" ∨ kv.1 = "_lastChangedAt" then
        (mapSet (toSnakeCase kv.1) kv.2 acc.1, acc.2)
      else recordAssign setters (toSnakeCase kv.1) kv.2 acc.1 acc.2)
    (raw, props)
  let raw2 :=
    if truthy (lookupKey "created_at" st.1) then st.1
    else mapSet "created_at" (.vnum now) st.1
  (mapSet "updated_at" (.vnum now) raw2, st.2)

/-- `collection.find(id)` (a throwing native call, modelled as `Option`). -/
def findInCollection (records : List WRecord) (id : String) : Option WRecord :=
  records.find? (fun r => r.id = id)

/-- The body of `save`'s single `db.write` transaction: find the native record
by the model's id; if found, update it in place (`OpType.UPDATE`); otherwise
create a fresh record with the framework id explicitly assigned
(`r._raw.id = model.id`, bypassing native id generation) (`OpType.INSERT`).
`setters` is the decorated property registry of the collection's model class.
Returns the updated collection contents, the saved record, and the op type. -/
def saveRecord (setters : List (String × FieldSetter)) (records : List WRecord)
    (model : SaveModel) (now : Nat) : List WRecord × WRecord × OpType :=
  match findInCollection records model.id with
  | some record =>
    let c := copyModelToRecord setters model now record.raw record.props
    let updated : WRecord := { record with raw := c.1, props := c.2 }
    (records.map (fun r => if r.id = model.id then updated else r), updated, .UPDATE)
  | none =>
    let c := copyModelToRecord setters model now [] []
    let created : WRecord := { id := model.id, raw := c.1, props := c.2 }
    (records ++ [created], created, .INSERT)

/-! ## Predicate compiler

`translateCondition` / `translatePredicateObject`, the DataStore-predicate to
WatermelonDB `Q`-condition translation.  A field condition is a JS object
carrying at most one recognized operator key; absent keys are `undefined`
(`Option.none`).  `inOp` renders the source's `in` key (a Lean keyword). -/

structure Condition where
  eq : Option JSVal := none
  ne : Option JSVal := none
  gt : Option JSVal := none
  ge : Option JSVal := none
  lt : Option JSVal := none
  le : Option JSVal := none
  contains : Option JSVal := none
  notContains : Option JSVal := none
  beginsWith : Option JSVal := none
  between : Option JSVal := none
  inOp : Option JSVal := none
  notIn : Option JSVal := none
  deriving Repr

mutual

/-- Template-literal string conversion of a value (used to build `%…%`
`LIKE` patterns).  The rendering of a function value is unobservable to the
adapter's logic; arrays join with commas per `Array.prototype.toString`. -/
def jsValToString : JSVal → String
  | .vundefined => "undefined"
  | .vnull => "null"
  | .vbool b => if b then "true" else "false"
  | .vnum n => toString n
  | .vstr s => s
  | .vfun n => "function " ++ toString n
  | .varr l => String.intercalate "," (jsValToStringList l)

def jsValToStringList : List JSVal → List String
  | [] => []
  | v :: rest => jsValToString v :: jsValToStringList rest

end

/-- The native `Q` operators the compiler emits (`Q.where(column, op)`),
including the bare-value form `Q.where(column, value)` for `eq`. -/
inductive QOperator where
  | value (v : JSVal)
  | notEq (v : JSVal)
  | gtOp (v : JSVal)
  | gte (v : JSVal)
  | ltOp (v : JSVal)
  | lte (v : JSVal)
  | like (pattern : String)
  | notLike (pattern : String)
  | betweenOp (lo hi : JSVal)
  | oneOf (vs : List JSVal)
  | notInSet (vs : List JSVal)
  deriving Repr

/-- A compiled WatermelonDB condition: `Q.where`, `Q.and`, or `Q.or`. -/
inductive WCondition where
  | whereC (column : String) (op : QOperator)
  | andC (conditions : List WCondition)
  | orC (conditions : List WCondition)
  deriving Repr

/-- Array destructuring index: `l[i]`, `undefined` past the end. -/
def jsIndex (l : List JSVal) (i : Nat) : JSVal := (l.get? i).getD .vundefined

/-- `translateCondition(columnName, condition)`: the source's fixed if-chain
over the twelve operator keys (`between`/`in`/`notIn` additionally require an
array operand); an unrecognized condition logs a warning and yields `null`. -/
def translateCondition (columnName : String) (condition : Condition) :
    Option WCondition :=
  match condition.eq with
  | some v => some (.whereC columnName (.value v))
  | none =>
  match condition.ne with
  | some v => some (.whereC columnName (.notEq v))
  | none =>
  match condition.gt with
  | some v => some (.whereC columnName (.gtOp v))
  | none =>
  match condition.ge with
  | some v => some (.whereC columnName (.gte v))
  | none =>
  match condition.lt with
  | some v => some (.whereC columnName (.ltOp v))
  | none =>
  match condition.le with
  | some v => some (.whereC columnName (.lte v))
  | none =>
  match condition.contains with
  | some v => some (.whereC columnName (.like ("%" ++ jsValToString v ++ "%")))
  | none =>
  match condition.notContains with
  | some v => some (.whereC columnName (.notLike ("%" ++ jsValToString v ++ "%")))
  | none =>
  match condition.beginsWith with
  | some v => some (.whereC columnName (.like (jsValToString v ++ "%")))
  | none =>
  match condition.between with
  | some (.varr l) =>
    some (.whereC columnName (.betweenOp (jsIndex l 0) (jsIndex l 1)))
  | _ =>
  match condition.inOp with
  | some (.varr l) => some (.whereC columnName (.oneOf l))
  | _ =>
  match condition.notIn with
  | some (.varr l) => some (.whereC columnName (.notInSet l))
  | _ => none

/-- A DataStore predicate object: an `and`/`or` combinator over
sub-predicates, or a table of per-field conditions. -/
inductive PredicateObject where
  | andP (predicates : List PredicateObject)
  | orP (predicates : List PredicateObject)
  | fields (entries : List (String × Condition))

/-- `translatePredicateObject`: `and`/`or` flatten their children and wrap a
nonempty result in `Q.and`/`Q.or`; field entries compile through
`translateCondition` on the snake-cased column name, dropping `null`s. -/
def translatePredicateObject : PredicateObject → List WCondition
  | .andP ps =>
    let subConditions := (ps.attach.map (fun p => translatePredicateObject p.1)).flatten
    if subConditions.length > 0 then [.andC subConditions] else []
  | .orP ps =>
    let subConditions := (ps.attach.map (fun p => translatePredicateObject p.1)).flatten
    if subConditions.length > 0 then [.orC subConditions] else []
  | .fields entries =>
    entries.filterMap (fun fc => translateCondition (toSnakeCase fc.1) fc.2)
termination_by p => sizeOf p
decreasing_by
  all_goals
    have hlt := List.sizeOf_lt_of_mem p.2
    simp
    omega

/-! ## Adapter state and public operations

The mutable fields of the `WatermelonDBAdapter` instance that the public
operations read and write.  `dbPresent`/`adapterPresent` model whether
`this.db`/`this.adapter` are bound; `subscriptions` abstracts the active
subscription set by its size; the per-table record lists stand for the native
collections' contents.  Effects of asynchronous native calls are threaded as
explicit state; the native query execution (`buildQuery(...).fetch()` followed
by model conversion) is an explicit `fetch` capability parameter. -/

structure AdapterState where
  isInitialized : Bool
  dbPresent : Bool
  adapterPresent : Bool
  collections : List (String × List WRecord)
  subscriptions : Nat
  queryCache : QueryCache (List WRecord)

/-- The message thrown by `ensureInitialized`. -/
def notInitializedMsg : String :=
  "WatermelonDBAdapter not initialized. Call setup() first."

/-- `ensureInitialized()`: throws unless `setup()` has completed. -/
def ensureInitialized (s : AdapterState) : Except String Unit :=
  if s.isInitialized then .ok () else .error notInitializedMsg

/-- `QueryOne` sentinels from DataStore. -/
inductive QueryOne where
  | FIRST
  | LAST
  deriving Repr, DecidableEq

/-- How the native query layer answers `buildQuery(collection, predicate,
pagination).fetch()` followed by `convertToDataStoreModel` — an external
capability of the embedded database, passed in explicitly. -/
abbrev FetchFn := String → Option JSVal → Option JSVal → List WRecord

/-- `query(modelConstructor, predicate?, pagination?)`: initialization guard,
unregistered table ⇒ empty list (not an error) before any cache interaction,
then cache lookup (with its lazy-expiry side effect), then fetch and cache
fill on a miss. -/
def queryOp (fetch : FetchFn) (cacheTTL maxCacheSize now : Nat)
    (s : AdapterState) (modelName : String) (predicate pagination : Option JSVal) :
    Except String (List WRecord × AdapterState) :=
  match ensureInitialized s with
  | .error e => .error e
  | .ok _ =>
    let tableName := getTableName modelName
    match lookupKey tableName s.collections with
    | none => .ok ([], s)
    | some _ =>
      let cacheKey := getCacheKey tableName predicate pagination
      match getFromCache cacheTTL now cacheKey s.queryCache with
      | (some cachedResult, cache') => .ok (cachedResult, { s with queryCache := cache' })
      | (none, cache') =>
        let results := fetch tableName predicate pagination
        .ok (results, { s with queryCache := setCache maxCacheSize now cacheKey results cache' })

/-- `queryOne(modelConstructor, firstOrLast)`: initialization guard,
unregistered table ⇒ `undefined`, else first/last of an unfiltered fetch. -/
def queryOneOp (s : AdapterState) (modelName : String) (firstOrLast : QueryOne) :
    Except String (Option WRecord) :=
  match ensureInitialized s with
  | .error e => .error e
  | .ok _ =>
    match lookupKey (getTableName modelName) s.collections with
    | none => .ok none
    | some records =>
      if records.length = 0 then .ok none
      else if firstOrLast = .FIRST then .ok records.head?
      else .ok records.getLast?

/-- `save(model)`: initialization guard, hard error on an unregistered table,
pessimistic table-scoped cache invalidation, then the `saveRecord`
transaction body inside `db.write`. -/
def saveOp (setters : List (String × FieldSetter)) (s : AdapterState)
    (modelName : String) (model : SaveModel) (now : Nat) :
    Except String (AdapterState × WRecord × OpType) :=
  match ensureInitialized s with
  | .error e => .error e
  | .ok _ =>
    let tableName := getTableName modelName
    match lookupKey tableName s.collections with
    | none => .error ("Collection not found: " ++ tableName)
    | some records =>
      let cache1 := invalidateTableCache tableName s.queryCache
      let (records', savedRecord, opType) := saveRecord setters records model now
      .ok ({ s with
               collections := mapSet tableName records' s.collections,
               queryCache := cache1 }, savedRecord, opType)

/-- `markAsDeleted()` on a native record: flag the raw row as deleted. -/
def markAsDeleted (r : WRecord) : WRecord :=
  { r with raw := mapSet "_status" (.vstr "deleted") r.raw }

/-- `delete(modelOrConstructor, condition?)`: initialization guard, hard error
on an unregistered table, table-scoped cache invalidation, then either the
single instance found by id (native `find` rejects when absent) or every
predicate match; soft-delete when the schema is syncable, else permanent
removal.  Returns the deleted records (the failed list is always empty). -/
def deleteOp (fetch : FetchFn) (syncable : Bool) (s : AdapterState)
    (modelName : String) (instanceId : Option String) (condition : Option JSVal) :
    Except String (AdapterState × List WRecord) :=
  match ensureInitialized s with
  | .error e => .error e
  | .ok _ =>
    let tableName := getTableName modelName
    match lookupKey tableName s.collections with
    | none => .error ("Collection not found: " ++ tableName)
    | some records =>
      let cache1 := invalidateTableCache tableName s.queryCache
      match instanceId with
      | some id =>
        match findInCollection records id with
        | none => .error ("Record not found: " ++ id)
        | some r =>
          let records' :=
            if syncable then records.map (fun x => if x.id = id then markAsDeleted x else x)
            else records.filter (fun x => x.id ≠ id)
          .ok ({ s with
                   collections := mapSet tableName records' s.collections,
                   queryCache := cache1 }, [r])
      | none =>
        let matched := fetch tableName condition none
        let matchedIds := matched.map WRecord.id
        let records' :=
          if syncable then records.map (fun x => if matchedIds.contains x.id then markAsDeleted x else x)
          else records.filter (fun x => ¬ matchedIds.contains x.id)
        .ok ({ s with
                 collections := mapSet tableName records' s.collections,
                 queryCache := cache1 }, matched)

/-- `batchSave(modelConstructor, models)`: initialization guard, hard error on
an unregistered table, one cache invalidation, then the sequential
find-or-create loop of `saveRecord` inside one write transaction. -/
def batchSaveOp (setters : List (String × FieldSetter)) (s : AdapterState)
    (modelName : String) (models : List SaveModel)
    (now : Nat) : Except String (AdapterState × List WRecord × List OpType) :=
  match ensureInitialized s with
  | .error e => .error e
  | .ok _ =>
    let tableName := getTableName modelName
    match lookupKey tableName s.collections with
    | none => .error ("Collection not found: " ++ tableName)
    | some records =>
      let cache1 := invalidateTableCache tableName s.queryCache
      let step := models.foldl
        (fun acc model =>
          let (recs, saved, ops) := acc
          let (recs', savedRecord, opType) := saveRecord setters recs model now
          (recs', saved ++ [savedRecord], ops ++ [opType]))
        (records, [], [])
      .ok ({ s with
               collections := mapSet tableName step.1 s.collections,
               queryCache := cache1 }, step.2.1, step.2.2)

/-- A heterogeneous `batch()` operation descriptor as the source receives it. -/
structure BatchDescriptor where
  type : String
  collection : Option String
  recordId : Option String
  deriving Repr

/-- The native `WatermelonOperation` built by `batch()`. -/
structure WatermelonOperation where
  type : String
  collection : Option String
  recordId : Option String
  deriving Repr

/-- The descriptor-to-native translation inside `batch()`: `create`, `update`,
`delete` (→ `markAsDeleted`) and `destroyPermanently` are forwarded; anything
else is silently skipped.  No collection-registry lookup happens anywhere. -/
def translateBatchDescriptor (op : BatchDescriptor) : Option WatermelonOperation :=
  if op.type = "create" then
    some { type := "create", collection := op.collection, recordId := op.recordId }
  else if op.type = "update" then
    some { type := "update", collection := none, recordId := op.recordId }
  else if op.type = "delete" then
    some { type := "markAsDeleted", collection := none, recordId := op.recordId }
  else if op.type = "destroyPermanently" then
    some { type := "destroyPermanently", collection := none, recordId := op.recordId }
  else none

/-- `batch(...operations)`: initialization guard, `this.db` presence check,
translate the descriptors, submit them as one native `db.batch` call (an
external primitive assumed to succeed), and clear the entire query cache. -/
def batchOp (s : AdapterState) (operations : List BatchDescriptor) :
    Except String (AdapterState × List WatermelonOperation) :=
  match ensureInitialized s with
  | .error e => .error e
  | .ok _ =>
    if s.dbPresent then
      let batchOperations := operations.filterMap translateBatchDescriptor
      .ok ({ s with queryCache := [] }, batchOperations)
    else .error "Database not initialized"

/-- `stopObserve()`: unsubscribe every tracked subscription (swallowing
per-subscription errors), empty the subscription set, clear the whole cache.
There is no initialization guard and no failure path in the source, hence the
result is always `.ok`. -/
def stopObserveOp (s : AdapterState) : Except String AdapterState :=
  .ok { s with subscriptions := 0, queryCache := [] }

/-- `clear()`: initialization guard, `stopObserve()`, destroy every record of
every registered collection inside one write transaction, clear the cache. -/
def clearOp (s : AdapterState) : Except String AdapterState :=
  match ensureInitialized s with
  | .error e => .error e
  | .ok _ =>
    match stopObserveOp s with
    | .error e => .error e
    | .ok s1 =>
      .ok { s1 with
              collections := s1.collections.map (fun kv => (kv.1, [])),
              queryCache := [] }

/-- `unsafeResetDatabase()`: initialization guard, then the native adapter's
reset (erasing all rows), collection re-registration, and cache/model-registry
clearing; errors only if no backend adapter object is bound. -/
def unsafeResetDatabaseOp (s : AdapterState) : Except String AdapterState :=
  match ensureInitialized s with
  | .error e => .error e
  | .ok _ =>
    if s.adapterPresent then
      .ok { s with
              collections := s.collections.map (fun kv => (kv.1, [])),
              queryCache := [] }
    else .error "Adapter not initialized"

/-- What subscribing to the observable returned by `observe()` does. -/
inductive ObserveOutcome where
  | rxUnavailable
  | subscribeError (message : String)
  | subscribed (tableName : String)
  deriving Repr, DecidableEq

/-- `observe(modelConstructor, …)` followed by subscribing to the returned
observable.  The source performs no initialization check: when RxJS is
missing a mock observable errors with "RxJS not available"; otherwise the
subscription body reports `Collection not found: <table>` through
`observer.error` for an unregistered table, else opens a native reactive
query and tracks the subscription handle. -/
def observeSubscribe (rxAvailable : Bool) (s : AdapterState) (modelName : String) :
    ObserveOutcome × AdapterState :=
  if rxAvailable then
    let tableName := getTableName modelName
    match lookupKey tableName s.collections with
    | none => (.subscribeError ("Collection not found: " ++ tableName), s)
    | some _ => (.subscribed tableName, { s with subscriptions := s.subscriptions + 1 })
  else (.rxUnavailable, s)

/-! ## Backend selection (`createOptimalAdapter`) -/

/-- The source's `DispatcherType`: exactly the four real backend tiers.  No
constructor denotes the in-memory stand-in. -/
inductive DispatcherType where
  | jsi
  | asynchronous
  | loki
  | sqliteNode
  deriving Repr, DecidableEq

/-- The non-persistent stand-in built by `createInMemoryAdapter`. -/
structure InMemoryAdapter where
  dbName : String
  deriving Repr, DecidableEq

/-- `createInMemoryAdapter(schema)` (its `dbName` is `getDatabaseName()`). -/
def createInMemoryAdapter : InMemoryAdapter :=
  { dbName := "amplify_datastore" }

/-- The stand-in's `find`: `async () => null`. -/
def inMemoryFind (_a : InMemoryAdapter) (_id : String) : Option JSVal := none

/-- The stand-in's `query`: `async () => []`. -/
def inMemoryQuery (_a : InMemoryAdapter) : List JSVal := []

/-- The adapter object selection ends with: a successfully constructed tier
backend, or the in-memory stand-in. -/
inductive SelectedAdapter (β : Type) where
  | tier (backend : β)
  | inMemory (backend : InMemoryAdapter)

/-- The observable outcome of `createOptimalAdapter`: the chosen backend and
the value of the `_dispatcherType` field afterwards. -/
structure SelectionResult (β : Type) where
  adapter : SelectedAdapter β
  dispatcherType : DispatcherType

/-- `createOptimalAdapter()`: try the strategies in the fixed order `jsi`,
`asynchronous`, `loki`, `sqlite-node`; a throw at one tier only advances to
the next; on success `_dispatcherType` is set to that tier's name.  When every
tier throws, the in-memory stand-in is returned — and `_dispatcherType` is
*not* assigned, so it keeps its previous value (`dispatcherType0`, the field
initializer `'jsi'` on a fresh adapter).  The four tier constructors are
external native entry points, passed in as their outcomes. -/
def createOptimalAdapter {β : Type}
    (strategyResults : DispatcherType → Except String β)
    (dispatcherType0 : DispatcherType) : SelectionResult β :=
  match strategyResults .jsi with
  | .ok adapter => ⟨.tier adapter, .jsi⟩
  | .error _ =>
    match strategyResults .asynchronous with
    | .ok adapter => ⟨.tier adapter, .asynchronous⟩
    | .error _ =>
      match strategyResults .loki with
      | .ok adapter => ⟨.tier adapter, .loki⟩
      | .error _ =>
        match strategyResults .sqliteNode with
        | .ok adapter => ⟨.tier adapter, .sqliteNode⟩
        | .error _ => ⟨.inMemory createInMemoryAdapter, dispatcherType0⟩

/-! ## Character-level lemmas for the name-style conversion -/

theorem char_toNat_ofNat {n : Nat} (h : n < 55296) : (Char.ofNat n).toNat = n := by
  have hv : n.isValidChar := Or.inl h
  rw [Char.ofNat, dif_pos hv]
  simp [Char.ofNatAux, Char.toNat, UInt32.toNat, BitVec.toNat_ofNatLt]

theorem lowerChar_toNat {c : Char} (h : isAsciiUpper c = true) :
    (lowerChar c).toNat = c.toNat + 32 := by
  simp only [isAsciiUpper, Bool.and_eq_true, decide_eq_true_eq] at h
  rw [lowerChar, if_pos h]
  exact char_toNat_ofNat (by omega)

theorem isAsciiLower_lowerChar {c : Char} (h : isAsciiUpper c = true) :
    isAsciiLower (lowerChar c) = true := by
  have h2 := lowerChar_toNat h
  simp only [isAsciiUpper, Bool.and_eq_true, decide_eq_true_eq] at h
  simp only [isAsciiLower, Bool.and_eq_true, decide_eq_true_eq, h2]
  omega

theorem upperChar_lowerChar {c : Char} (h : isAsciiUpper c = true) :
    upperChar (lowerChar c) = c := by
  have h2 := lowerChar_toNat h
  simp only [isAsciiUpper, Bool.and_eq_true, decide_eq_true_eq] at h
  rw [upperChar, if_pos (by omega), h2, Nat.add_sub_cancel, Char.ofNat_toNat]

theorem ne_underscore_of_isAsciiLower {c : Char} (h : isAsciiLower c = true) :
    ¬ c = '_' := by
  intro he
  subst he
  exact absurd h (by decide)

theorem camelChars_cons (c : Char) (l : List Char) :
    camelChars (c :: l) =
      if camelMatchesAt c l then
        (match l with | c2 :: rest2 => upperChar c2 :: camelChars rest2 | [] => [])
      else c :: camelChars l := by
  rw [camelChars.eq_def]

theorem camelChars_cons_ne {c : Char} (h : ¬ c = '_') (l : List Char) :
    camelChars (c :: l) = c :: camelChars l := by
  rw [camelChars_cons, if_neg]
  simp [camelMatchesAt, h]

theorem camelChars_underscore_lower {c2 : Char} (h : isAsciiLower c2 = true)
    (l : List Char) : camelChars ('_' :: c2 :: l) = upperChar c2 :: camelChars l := by
  rw [camelChars_cons, if_pos]
  simp [camelMatchesAt, h]

/-- The camel-case scan inverts the snake-case expansion on letter-only
strings: every underscore in the expansion was inserted before a lowered
(formerly uppercase) letter. -/
theorem camelChars_snakeChars {s : List Char}
    (h : ∀ c ∈ s, isAsciiUpper c = true ∨ isAsciiLower c = true) :
    camelChars (snakeChars s) = s := by
  induction s with
  | nil => rfl
  | cons c rest ih =>
    have hrest : ∀ x ∈ rest, isAsciiUpper x = true ∨ isAsciiLower x = true :=
      fun x hx => h x (by simp [hx])
    rcases h c (by simp) with hu | hl
    · rw [snakeChars, snakeChar, if_pos hu, List.cons_append, List.cons_append,
        List.nil_append, camelChars_underscore_lower (isAsciiLower_lowerChar hu),
        upperChar_lowerChar hu, ih hrest]
    · have hne : ¬ c = '_' := ne_underscore_of_isAsciiLower hl
      have hnu : ¬ isAsciiUpper c = true := by
        simp only [isAsciiUpper, isAsciiLower, Bool.and_eq_true, decide_eq_true_eq] at hl ⊢
        omega
      rw [snakeChars, snakeChar, if_neg hnu, List.cons_append, List.nil_append,
        camelChars_cons_ne hne, ih hrest]

theorem stripLeadingUnderscore_cons_ne {c : Char} (h : ¬ c = '_') (l : List Char) :
    stripLeadingUnderscore (c :: l) = c :: l := by
  unfold stripLeadingUnderscore
  split
  · next heq => injection heq with h1 h2; exact absurd h1 h
  · rfl

/-! # Claim theorems -/

/-- C9: `toSnakeCase` and `toCamelCase` are deterministic pure functions of
their input (they are plain functions of the string in this model), but
composing them is not identity-preserving for all names: the name
`"foo_bar"`, which contains a pre-existing underscore, round-trips to
`"fooBar"` ≠ `"foo_bar"`, while every name consisting only of ASCII letters
in lowerCamelCase form (all letters, first letter lowercase) round-trips to
itself. -/
theorem case_conversion_roundtrip :
    toCamelCase (toSnakeCase "foo_bar") ≠ "foo_bar"
    ∧ ∀ s : String,
        (∀ c ∈ s.data, isAsciiUpper c = true ∨ isAsciiLower c = true) →
        (∀ c, s.data.head? = some c → isAsciiLower c = true) →
        toCamelCase (toSnakeCase s) = s := by
  constructor
  · decide
  · intro s hall hhead
    cases s with
    | mk data =>
      cases data with
      | nil => rfl
      | cons c rest =>
        have hl : isAsciiLower c = true := hhead c rfl
        have hnu : ¬ isAsciiUpper c = true := by
          simp only [isAsciiUpper, isAsciiLower, Bool.and_eq_true, decide_eq_true_eq] at hl ⊢
          omega
        have hne : ¬ c = '_' := ne_underscore_of_isAsciiLower hl
        have hrest : ∀ x ∈ rest, isAsciiUpper x = true ∨ isAsciiLower x = true :=
          fun x hx => hall x (by simp [hx])
        show String.mk (camelChars (stripLeadingUnderscore (snakeChars (c :: rest))))
          = String.mk (c :: rest)
        rw [snakeChars, snakeChar, if_neg hnu, List.cons_append, List.nil_append,
          stripLeadingUnderscore_cons_ne hne, camelChars_cons_ne hne,
          camelChars_snakeChars hrest]

/-- C9 witness: the round trip is the identity on the concrete
lowerCamelCase letters-only name `"fooBar"`. -/
theorem case_conversion_roundtrip_witness :
    toCamelCase (toSnakeCase "fooBar") = "fooBar" :=
  case_conversion_roundtrip.2 "fooBar" (by decide) (by decide)

/-- C2: the handler returned by `getConflictHandler()` decides in this fixed
order: attempts > 3 ⇒ ACCEPT_REMOTE unconditionally; else DELETE ⇒
ACCEPT_REMOTE; else a strictly greater remote version ⇒ ACCEPT_REMOTE and a
strictly greater local version ⇒ RETRY_LOCAL; with equal versions the result
is ACCEPT_REMOTE exactly when the remote last-changed timestamp is strictly
greater than the local one, and RETRY_LOCAL otherwise. -/
theorem conflict_policy (l r : ConflictModel) (op : OpType) (attempts : Nat) :
    (attempts > 3 → conflictHandler l r op attempts = .ACCEPT_REMOTE)
    ∧ (attempts ≤ 3 → op = .DELETE → conflictHandler l r op attempts = .ACCEPT_REMOTE)
    ∧ (attempts ≤ 3 → op ≠ .DELETE → r.version.getD 0 > l.version.getD 0 →
        conflictHandler l r op attempts = .ACCEPT_REMOTE)
    ∧ (attempts ≤ 3 → op ≠ .DELETE → l.version.getD 0 > r.version.getD 0 →
        conflictHandler l r op attempts = .RETRY_LOCAL)
    ∧ (attempts ≤ 3 → op ≠ .DELETE → l.version.getD 0 = r.version.getD 0 →
        ((conflictHandler l r op attempts = .ACCEPT_REMOTE ↔
            r.lastChangedAt.getD 0 > l.lastChangedAt.getD 0)
          ∧ (conflictHandler l r op attempts = .RETRY_LOCAL ↔
            ¬ r.lastChangedAt.getD 0 > l.lastChangedAt.getD 0))) := by
  refine ⟨?_, ?_, ?_, ?_, ?_⟩
  · intro h1
    simp [conflictHandler, h1]
  · intro h1 h2
    simp [conflictHandler, Nat.not_lt.mpr h1, h2]
  · intro h1 h2 h3
    simp [conflictHandler, Nat.not_lt.mpr h1, h2, h3]
  · intro h1 h2 h3
    simp [conflictHandler, Nat.not_lt.mpr h1, h2, h3, Nat.not_lt.mpr (Nat.le_of_lt h3)]
  · intro h1 h2 h3
    by_cases h4 : r.lastChangedAt.getD 0 > l.lastChangedAt.getD 0
    · simp [conflictHandler, Nat.not_lt.mpr h1, h2, h3, h4]
    · simp [conflictHandler, Nat.not_lt.mpr h1, h2, h3, h4]

/-- C2 witness: the four concrete decisions named by the claim —
attempts = 4 ⇒ ACCEPT_REMOTE; DELETE at attempts = 0 ⇒ ACCEPT_REMOTE;
local version 2 vs remote version 1 ⇒ RETRY_LOCAL; equal versions with a
strictly greater remote timestamp ⇒ ACCEPT_REMOTE. -/
theorem conflict_policy_witness :
    conflictHandler ⟨some 1, some 5⟩ ⟨some 1, some 5⟩ .UPDATE 4 = .ACCEPT_REMOTE
    ∧ conflictHandler ⟨some 1, some 5⟩ ⟨some 1, some 5⟩ .DELETE 0 = .ACCEPT_REMOTE
    ∧ conflictHandler ⟨some 2, some 5⟩ ⟨some 1, some 5⟩ .UPDATE 0 = .RETRY_LOCAL
    ∧ conflictHandler ⟨some 1, some 5⟩ ⟨some 1, some 9⟩ .UPDATE 0 = .ACCEPT_REMOTE :=
  ⟨(conflict_policy _ _ _ _).1 (by decide),
   (conflict_policy _ _ _ _).2.1 (by decide) rfl,
   (conflict_policy _ _ _ _).2.2.2.1 (by decide) (by decide) (by decide),
   ((conflict_policy _ _ _ _).2.2.2.2 (by decide) (by decide) (by decide)).1.mpr (by decide)⟩

/-- Unfolding `setCache` on a cache at or over capacity whose first key is
nonempty: evict the first entry, then insert. -/
theorem setCache_full {α : Type} {maxCacheSize : Nat} (now : Nat) (key : String)
    (value : α) (kv0 : String × CacheEntry α) (tl : QueryCache α)
    (hge : (kv0 :: tl).length ≥ maxCacheSize) (h0 : kv0.1 ≠ "") :
    setCache maxCacheSize now key value (kv0 :: tl)
      = mapSet key ⟨value, now⟩ tl := by
  have hge2 : maxCacheSize ≤ tl.length + 1 := by simpa using hge
  unfold setCache
  simp [hge2, h0, mapDelete]

/-- Unfolding `setCache` under capacity: plain insert. -/
theorem setCache_not_full {α : Type} {maxCacheSize : Nat} (now : Nat) (key : String)
    (value : α) (cache : QueryCache α) (hlt : ¬ cache.length ≥ maxCacheSize) :
    setCache maxCacheSize now key value cache = mapSet key ⟨value, now⟩ cache := by
  unfold setCache
  simp [hlt]

/-- C5: on a cache whose size has reached the configured maximum (at least 1,
as every `cacheMaxSize` the constructor can produce is), inserting a new
fingerprint evicts exactly the earliest-inserted entry — the result is the
old cache minus its first entry plus the new entry — the evicted fingerprint
misses on a subsequent lookup, the new fingerprint hits, and an insert never
pushes the size beyond the configured maximum.  The hypotheses that keys are
distinct and nonempty are invariants of the real cache: fingerprints from
`getCacheKey` always contain `":"`, and a `Map` keeps keys unique. -/
theorem cache_eviction {α : Type} (cache : QueryCache α)
    (maxCacheSize cacheTTL now now' : Nat) (key : String) (value : α)
    (hfull : cache.length = maxCacheSize)
    (hpos : 1 ≤ maxCacheSize)
    (hfresh : lookupKey key cache = none)
    (hkeys : ∀ kv ∈ cache, kv.1 ≠ "")
    (hnd : (cache.map Prod.fst).Nodup)
    (httl : now' - now ≤ cacheTTL) :
    setCache maxCacheSize now key value cache
      = cache.tail ++ [(key, ⟨value, now⟩)]
    ∧ (∀ firstKey e, cache.head? = some (firstKey, e) →
        (getFromCache cacheTTL now' firstKey
          (setCache maxCacheSize now key value cache)).1 = none)
    ∧ (getFromCache cacheTTL now' key
        (setCache maxCacheSize now key value cache)).1 = some value
    ∧ (∀ (c : QueryCache α) (k : String) (v : α) (t : Nat),
        c.length ≤ maxCacheSize → (∀ kv ∈ c, kv.1 ≠ "") →
        (setCache maxCacheSize t k v c).length ≤ maxCacheSize) := by
  have hsize : ∀ (c : QueryCache α) (k : String) (v : α) (t : Nat),
      c.length ≤ maxCacheSize → (∀ kv ∈ c, kv.1 ≠ "") →
      (setCache maxCacheSize t k v c).length ≤ maxCacheSize := by
    intro c k v t hle hne
    by_cases hge : c.length ≥ maxCacheSize
    · have hlen : c.length = maxCacheSize := Nat.le_antisymm hle hge
      cases c with
      | nil => simp at hlen; omega
      | cons kv0 tl =>
        rw [setCache_full t k v kv0 tl hge (hne kv0 (by simp))]
        have := mapSet_length_le k (⟨v, t⟩ : CacheEntry α) tl
        simp only [List.length_cons] at hlen
        omega
    · rw [setCache_not_full t k v c hge]
      have := mapSet_length_le k (⟨v, t⟩ : CacheEntry α) c
      omega
  cases cache with
  | nil => simp at hfull; omega
  | cons kv0 tl =>
    have h0 : kv0.1 ≠ "" := hkeys kv0 (by simp)
    have hge : (kv0 :: tl).length ≥ maxCacheSize := le_of_eq hfull.symm
    have hk0 : ¬ kv0.1 = key := by
      by_contra hc
      simp [hc] at hfresh
    have hk0' : ¬ key = kv0.1 := fun hc => hk0 hc.symm
    have htl : lookupKey key tl = none := by
      simpa [hk0] using hfresh
    have hmain : setCache maxCacheSize now key value (kv0 :: tl)
        = tl ++ [(key, ⟨value, now⟩)] := by
      rw [setCache_full now key value kv0 tl hge h0]
      exact mapSet_eq_append htl _
    refine ⟨hmain, ?_, ?_, hsize⟩
    · intro firstKey e hhead
      have hfk : firstKey = kv0.1 := by
        simp only [List.head?_cons, Option.some.injEq] at hhead
        exact (congrArg Prod.fst hhead).symm
      subst hfk
      have hnotl : lookupKey kv0.1 tl = none := by
        apply lookupKey_eq_none_of_not_mem
        simp only [List.map_cons, List.nodup_cons] at hnd
        exact hnd.1
      have hlast : lookupKey kv0.1 [(key, (⟨value, now⟩ : CacheEntry α))] = none := by
        simp [hk0']
      rw [hmain]
      simp [getFromCache, lookupKey_append, hnotl, hlast, Option.orElse]
    · rw [hmain]
      have hl : lookupKey key (tl ++ [(key, (⟨value, now⟩ : CacheEntry α))])
          = some ⟨value, now⟩ := by
        simp [lookupKey_append, htl, Option.orElse]
      simp [getFromCache, hl, Nat.not_lt.mpr httl]

/-- C5 witness: a concrete full cache of capacity 2; inserting the fresh
fingerprint `"t:c:"` evicts exactly the oldest entry `"t:a:"`, which then
misses, while the new entry hits, and the size bound holds. -/
theorem cache_eviction_witness :
    setCache 2 10 "t:c:" 30
        [("t:a:", ⟨(10 : Nat), 0⟩), ("t:b:", ⟨20, 5⟩)]
      = [("t:b:", ⟨20, 5⟩), ("t:c:", ⟨30, 10⟩)]
    ∧ (∀ firstKey e,
        ([("t:a:", (⟨(10 : Nat), 0⟩ : CacheEntry Nat)), ("t:b:", ⟨20, 5⟩)]
            : QueryCache Nat).head? = some (firstKey, e) →
        (getFromCache 100 12 firstKey
          (setCache 2 10 "t:c:" 30
            [("t:a:", ⟨(10 : Nat), 0⟩), ("t:b:", ⟨20, 5⟩)])).1 = none)
    ∧ (getFromCache 100 12 "t:c:"
        (setCache 2 10 "t:c:" 30
          [("t:a:", ⟨(10 : Nat), 0⟩), ("t:b:", ⟨20, 5⟩)])).1 = some 30
    ∧ (∀ (c : QueryCache Nat) (k : String) (v : Nat) (t : Nat),
        c.length ≤ 2 → (∀ kv ∈ c, kv.1 ≠ "") →
        (setCache 2 t k v c).length ≤ 2) := by
  have h := cache_eviction (α := Nat)
    [("t:a:", ⟨10, 0⟩), ("t:b:", ⟨20, 5⟩)] 2 100 10 12 "t:c:" 30
    rfl (by decide) rfl (by decide) (by decide) (by decide)
  exact ⟨h.1, h.2.1, h.2.2.1, h.2.2.2⟩

/-- C6: a cache lookup of a fingerprint inserted more than TTL milliseconds
earlier returns absent — the same `none` a never-inserted fingerprint
returns — and removes the expired entry as a side effect (so that even an
immediate re-lookup misses); an entry looked up at or before the TTL
boundary is returned with the cache untouched.  Expiry happens only inside
`getFromCache` — the model contains no background sweep. -/
theorem cache_ttl_expiry {α : Type} (cacheTTL now : Nat) (key : String)
    (cache : QueryCache α) (hnd : (cache.map Prod.fst).Nodup) :
    (∀ e : CacheEntry α, lookupKey key cache = some e →
        now - e.timestamp > cacheTTL →
        getFromCache cacheTTL now key cache = (none, mapDelete key cache)
        ∧ (getFromCache cacheTTL now key (mapDelete key cache)).1 = none)
    ∧ (∀ e : CacheEntry α, lookupKey key cache = some e →
        now - e.timestamp ≤ cacheTTL →
        getFromCache cacheTTL now key cache = (some e.result, cache))
    ∧ (lookupKey key cache = none →
        getFromCache cacheTTL now key cache = (none, cache)) := by
  refine ⟨?_, ?_, ?_⟩
  · intro e he hexp
    constructor
    · simp [getFromCache, he, hexp]
    · have hdel : lookupKey key (mapDelete key cache) = none :=
        lookupKey_mapDelete_self hnd
      simp [getFromCache, hdel]
  · intro e he hfresh
    simp [getFromCache, he, Nat.not_lt.mpr hfresh]
  · intro he
    simp [getFromCache, he]

/-! ### Lemmas for the save/timestamp contract (C1)

Snake-cased assignment names contain no ASCII uppercase letter, so they can
never name the camelCase-registered decorated properties; the only decorated
property whose column is `created_at` is `createdAt` (read-only), hence no
copy-loop write reaches `_raw.created_at` unless the schema itself declares a
field named `created_at` or `_created_at` — which it cannot, since the
adapter appends `created_at` as a system column of its own. -/

theorem isAsciiUpper_lowerChar {c : Char} (h : isAsciiUpper c = true) :
    isAsciiUpper (lowerChar c) = false := by
  have h2 := lowerChar_toNat h
  simp only [isAsciiUpper, Bool.and_eq_true, decide_eq_true_eq] at h
  cases hb : isAsciiUpper (lowerChar c) with
  | false => rfl
  | true =>
    exfalso
    simp only [isAsciiUpper, Bool.and_eq_true, decide_eq_true_eq, h2] at hb
    omega

theorem snakeChars_upper_free (l : List Char) :
    ∀ c ∈ snakeChars l, isAsciiUpper c = false := by
  induction l with
  | nil => intro c hc; simp [snakeChars] at hc
  | cons c0 rest ih =>
    intro c hc
    rw [snakeChars] at hc
    rcases List.mem_append.mp hc with hc | hc
    · unfold snakeChar at hc
      by_cases hu : isAsciiUpper c0 = true
      · rw [if_pos hu] at hc
        simp only [List.mem_cons, List.mem_singleton, List.not_mem_nil,
          or_false] at hc
        rcases hc with rfl | rfl
        · decide
        · exact isAsciiUpper_lowerChar hu
      · rw [if_neg hu] at hc
        simp only [List.mem_singleton] at hc
        subst hc
        simpa using hu
    · exact ih c hc

theorem stripLeadingUnderscore_mem {c : Char} {l : List Char}
    (h : c ∈ stripLeadingUnderscore l) : c ∈ l := by
  cases l with
  | nil => exact h
  | cons c0 rest =>
    by_cases h0 : c0 = '_'
    · subst h0
      exact List.mem_cons_of_mem _ h
    · rwa [stripLeadingUnderscore_cons_ne h0] at h

theorem toSnakeCase_upper_free (k : String) :
    ∀ c ∈ (toSnakeCase k).data, isAsciiUpper c = false := by
  intro c hc
  have hc2 : c ∈ stripLeadingUnderscore (snakeChars k.data) := hc
  exact snakeChars_upper_free k.data c (stripLeadingUnderscore_mem hc2)

/-- A string with no uppercase letter differs from any string containing one. -/
theorem upper_free_ne {n : String} (hfree : ∀ c ∈ n.data, isAsciiUpper c = false)
    {t : String} (c : Char) (hc : c ∈ t.data) (hu : isAsciiUpper c = true) :
    n ≠ t := by
  intro he
  subst he
  rw [hfree c hc] at hu
  exact Bool.false_ne_true hu

theorem snakeChars_id_of_upper_free {l : List Char}
    (h : ∀ c ∈ l, isAsciiUpper c = false) : snakeChars l = l := by
  induction l with
  | nil => rfl
  | cons c rest ih =>
    have hc : isAsciiUpper c = false := h c (by simp)
    rw [snakeChars, snakeChar, if_neg (by rw [hc]; exact Bool.false_ne_true),
      List.singleton_append, ih (fun x hx => h x (List.mem_cons_of_mem _ hx))]

theorem stripLeadingUnderscore_cases (l : List Char) :
    stripLeadingUnderscore l = l ∨ l = '_' :: stripLeadingUnderscore l := by
  cases l with
  | nil => exact Or.inl rfl
  | cons c rest =>
    by_cases h0 : c = '_'
    · subst h0
      exact Or.inr rfl
    · exact Or.inl (stripLeadingUnderscore_cons_ne h0 rest)

/-- The only uppercase-free strings whose snake-casing is `created_at` are
`created_at` itself and `_created_at` (the leading underscore is stripped). -/
theorem eq_created_of_toSnakeCase_eq {n : String}
    (hfree : ∀ c ∈ n.data, isAsciiUpper c = false)
    (h : toSnakeCase n = "created_at") :
    n = "created_at" ∨ n = "_created_at" := by
  have hid2 : snakeChars n.data = n.data := snakeChars_id_of_upper_free hfree
  have hdata : stripLeadingUnderscore n.data = "created_at".data := by
    have h2 := congrArg String.data h
    rw [show (toSnakeCase n).data = stripLeadingUnderscore (snakeChars n.data)
      from rfl, hid2] at h2
    exact h2
  rcases stripLeadingUnderscore_cases n.data with hc | hc
  · left
    exact String.ext (by rw [← hc, hdata])
  · right
    refine String.ext ?_
    rw [hc, hdata]

/-- Every entry of the per-field registry is keyed by a declared field name
and targets its snake-cased column through a non-readonly setter. -/
theorem fieldDecoratorRegistry_lookup_aux (fields0 : List String) :
    ∀ (fields : List String) (acc : List (String × FieldSetter)),
    (∀ f ∈ fields, f ∈ fields0) →
    (∀ n s, lookupKey n acc = some s →
      s.column = toSnakeCase n ∧ s.readOnly = false ∧ n ∈ fields0) →
    ∀ n s, lookupKey n (fields.foldl
        (fun acc fieldName =>
          if fieldName = "id" then acc
          else mapSet fieldName ⟨toSnakeCase fieldName, false⟩ acc) acc)
      = some s →
      s.column = toSnakeCase n ∧ s.readOnly = false ∧ n ∈ fields0 := by
  intro fields
  induction fields with
  | nil => intro acc hsub hacc n s h; exact hacc n s h
  | cons f rest ih =>
    intro acc hsub hacc n s h
    simp only [List.foldl_cons] at h
    by_cases hf : f = "id"
    · rw [if_pos hf] at h
      exact ih acc (fun x hx => hsub x (by simp [hx])) hacc n s h
    · rw [if_neg hf] at h
      refine ih _ (fun x hx => hsub x (by simp [hx])) ?_ n s h
      intro n2 s2 h2
      by_cases hn : n2 = f
      · subst hn
        rw [lookupKey_mapSet_self] at h2
        injection h2 with h3
        subst h3
        exact ⟨rfl, rfl, hsub n2 (by simp)⟩
      · rw [lookupKey_mapSet_ne (fun hc => hn hc.symm)] at h2
        exact hacc n2 s2 h2

theorem fieldDecoratorRegistry_lookup {fields : List String} {n : String}
    {s : FieldSetter} (h : lookupKey n (fieldDecoratorRegistry fields) = some s) :
    s.column = toSnakeCase n ∧ s.readOnly = false ∧ n ∈ fields :=
  fieldDecoratorRegistry_lookup_aux fields fields [] (fun _ hx => hx)
    (fun n2 s2 h2 => by simp at h2) n s h

/-- No write the copy loop performs through `record[toSnakeCase key] = value`
can reach the `_raw.created_at` column of a generated model class whose
schema declares no field named `created_at` or `_created_at`: the `createdAt`
property (the one decorated setter targeting `created_at`) is unreachable
from any snake-cased name. -/
theorem recordAssign_preserves_created (fields : List String)
    (hc1 : "created_at" ∉ fields) (hc2 : "_created_at" ∉ fields)
    (k : String) (v : JSVal) (raw props : List (String × JSVal)) :
    lookupKey "created_at"
      (recordAssign (addFieldDecorators fields) (toSnakeCase k) v raw props).1
      = lookupKey "created_at" raw := by
  have hfree := toSnakeCase_upper_free k
  have hne1 : toSnakeCase k ≠ "updatedAt" :=
    upper_free_ne hfree 'A' (by decide) (by decide)
  have hne2 : toSnakeCase k ≠ "createdAt" :=
    upper_free_ne hfree 'A' (by decide) (by decide)
  have hne3 : toSnakeCase k ≠ "_lastChangedAt" :=
    upper_free_ne hfree 'C' (by decide) (by decide)
  unfold recordAssign addFieldDecorators
  rw [lookupKey_mapSet_ne (Ne.symm hne1), lookupKey_mapSet_ne (Ne.symm hne2),
    lookupKey_mapSet_ne (Ne.symm hne3)]
  by_cases hd : toSnakeCase k = "_deleted"
  · rw [hd, lookupKey_mapSet_self]
    exact lookupKey_mapSet_ne (by decide) v raw
  · rw [lookupKey_mapSet_ne (Ne.symm hd)]
    by_cases hv : toSnakeCase k = "_version"
    · rw [hv, lookupKey_mapSet_self]
      exact lookupKey_mapSet_ne (by decide) v raw
    · rw [lookupKey_mapSet_ne (Ne.symm hv)]
      cases hfp : lookupKey (toSnakeCase k) (fieldDecoratorRegistry fields) with
      | none => simp only [hfp]
      | some s =>
        obtain ⟨hcol, hro, hmem⟩ := fieldDecoratorRegistry_lookup hfp
        simp only [hfp]
        rw [if_neg (by rw [hro]; exact Bool.false_ne_true)]
        have hcolne : s.column ≠ "created_at" := by
          rw [hcol]
          intro heq
          rcases eq_created_of_toSnakeCase_eq hfree heq with h | h
          · rw [h] at hmem; exact hc1 hmem
          · rw [h] at hmem; exact hc2 hmem
        exact lookupKey_mapSet_ne hcolne v raw

/-- The whole copy loop leaves `_raw.created_at` untouched, for model classes
generated from schemas without a `created_at`/`_created_at` field: the three
sync keys target other columns, and every other entry goes through
`recordAssign`. -/
theorem copyLoop_preserves_created (fields : List String)
    (hc1 : "created_at" ∉ fields) (hc2 : "_created_at" ∉ fields)
    (entries : List (String × JSVal)) :
    ∀ raw props : List (String × JSVal),
    lookupKey "created_at"
      (entries.foldl
        (fun acc kv =>
          if kv.1 = "id" ∨ kv.1 = "constructor" then acc
          else if kv.1 = "_version" ∨ kv.1 = "_deleted" ∨ kv.1 = "_lastChangedAt" then
            (mapSet (toSnakeCase kv.1) kv.2 acc.1, acc.2)
          else recordAssign (addFieldDecorators fields) (toSnakeCase kv.1) kv.2 acc.1 acc.2)
        (raw, props)).1
      = lookupKey "created_at" raw := by
  induction entries with
  | nil => intro raw props; rfl
  | cons kv rest ih =>
    intro raw props
    simp only [List.foldl_cons]
    by_cases hskip : kv.1 = "id" ∨ kv.1 = "constructor"
    · rw [if_pos hskip]
      exact ih raw props
    · rw [if_neg hskip]
      by_cases hsync : kv.1 = "_version" ∨ kv.1 = "_deleted" ∨ kv.1 = "_lastChangedAt"
      · rw [if_pos hsync, ih (mapSet (toSnakeCase kv.1) kv.2 raw) props]
        rcases hsync with h | h | h <;> rw [h] <;>
          exact lookupKey_mapSet_ne (by decide) kv.2 raw
      · rw [if_neg hsync]
        exact (ih (recordAssign (addFieldDecorators fields) (toSnakeCase kv.1)
            kv.2 raw props).1
          (recordAssign (addFieldDecorators fields) (toSnakeCase kv.1)
            kv.2 raw props).2).trans
          (recordAssign_preserves_created fields hc1 hc2 kv.1 kv.2 raw props)

/-- The `updated_at` stamp after `copyModelToRecord` is always the current
time, on any record and for any setter registry. -/
theorem copyModelToRecord_updated (setters : List (String × FieldSetter))
    (model : SaveModel) (now : Nat) (raw props : List (String × JSVal)) :
    lookupKey "updated_at" (copyModelToRecord setters model now raw props).1
      = some (.vnum now) := by
  simp only [copyModelToRecord]
  exact lookupKey_mapSet_self _ _ _

/-- The `created_at` stamp after `copyModelToRecord` on a generated model
class: set to now exactly when it was falsy before, preserved otherwise. -/
theorem copyModelToRecord_created (fields : List String)
    (hc1 : "created_at" ∉ fields) (hc2 : "_created_at" ∉ fields)
    (model : SaveModel) (now : Nat) (raw props : List (String × JSVal)) :
    lookupKey "created_at"
      (copyModelToRecord (addFieldDecorators fields) model now raw props).1
      = if truthy (lookupKey "created_at" raw) then lookupKey "created_at" raw
        else some (.vnum now) := by
  have h1 := copyLoop_preserves_created fields hc1 hc2 model.fields raw props
  have hud : ("updated_at" : String) ≠ "created_at" := by decide
  simp only [copyModelToRecord]
  rw [lookupKey_mapSet_ne hud, h1]
  by_cases ht : truthy (lookupKey "created_at" raw) = true
  · rw [if_pos ht, if_pos ht]
    exact h1
  · rw [if_neg ht, if_neg ht]
    exact lookupKey_mapSet_self _ _ _

/-- C1: for every model passed to `save` — whatever fields it carries — the
write-transaction body first looks the record up by the model's id: a fresh
id is created with the framework id explicitly assigned and reported as
`INSERT`, with `created_at = updated_at = now`; the `updated_at` column is
always refreshed to the current time and `created_at` is set only when
absent (preserved whenever truthy); a second save of the same id at a later
instant updates the record in place (no record is added) and reports
`UPDATE`, with `created_at` unchanged and `updated_at` refreshed to the
later instant (hence ≥ the first).  Hypotheses: the schema declares no field
named `created_at`/`_created_at` (those are system columns the adapter
itself appends, so a schema field of that name would collide in
`buildTableSchema`), and the clock is positive and monotone, as `Date.now()`
is. -/
theorem save_insert_then_update (schemaFieldNames : List String)
    (coll : List WRecord) (m m2 : SaveModel) (now1 now2 : Nat)
    (hc1 : "created_at" ∉ schemaFieldNames)
    (hc2 : "_created_at" ∉ schemaFieldNames)
    (hfresh : findInCollection coll m.id = none)
    (hid : m2.id = m.id)
    (hpos : 0 < now1) (hmono : now1 ≤ now2) :
    (saveRecord (addFieldDecorators schemaFieldNames) coll m now1).2.2 = .INSERT
    ∧ (saveRecord (addFieldDecorators schemaFieldNames) coll m now1).2.1.id = m.id
    ∧ lookupKey "created_at"
        (saveRecord (addFieldDecorators schemaFieldNames) coll m now1).2.1.raw
        = some (.vnum now1)
    ∧ lookupKey "updated_at"
        (saveRecord (addFieldDecorators schemaFieldNames) coll m now1).2.1.raw
        = some (.vnum now1)
    ∧ (∀ (raw props : List (String × JSVal)) (now : Nat),
        lookupKey "updated_at"
          (copyModelToRecord (addFieldDecorators schemaFieldNames) m now raw props).1
          = some (.vnum now))
    ∧ (∀ (raw props : List (String × JSVal)) (now : Nat),
        truthy (lookupKey "created_at" raw) = true →
        lookupKey "created_at"
          (copyModelToRecord (addFieldDecorators schemaFieldNames) m now raw props).1
          = lookupKey "created_at" raw)
    ∧ (saveRecord (addFieldDecorators schemaFieldNames)
        (saveRecord (addFieldDecorators schemaFieldNames) coll m now1).1
        m2 now2).2.2 = .UPDATE
    ∧ (saveRecord (addFieldDecorators schemaFieldNames)
        (saveRecord (addFieldDecorators schemaFieldNames) coll m now1).1
        m2 now2).1.length
        = (saveRecord (addFieldDecorators schemaFieldNames) coll m now1).1.length
    ∧ lookupKey "created_at"
        (saveRecord (addFieldDecorators schemaFieldNames)
          (saveRecord (addFieldDecorators schemaFieldNames) coll m now1).1
          m2 now2).2.1.raw
        = some (.vnum now1)
    ∧ lookupKey "updated_at"
        (saveRecord (addFieldDecorators schemaFieldNames)
          (saveRecord (addFieldDecorators schemaFieldNames) coll m now1).1
          m2 now2).2.1.raw
        = some (.vnum now2)
    ∧ now1 ≤ now2 := by
  have hstep1 : saveRecord (addFieldDecorators schemaFieldNames) coll m now1
      = (coll ++ [⟨m.id,
          (copyModelToRecord (addFieldDecorators schemaFieldNames) m now1 [] []).1,
          (copyModelToRecord (addFieldDecorators schemaFieldNames) m now1 [] []).2⟩],
         ⟨m.id,
          (copyModelToRecord (addFieldDecorators schemaFieldNames) m now1 [] []).1,
          (copyModelToRecord (addFieldDecorators schemaFieldNames) m now1 [] []).2⟩,
         .INSERT) := by
    unfold saveRecord
    rw [hfresh]
  have hcreated1 : lookupKey "created_at"
      (copyModelToRecord (addFieldDecorators schemaFieldNames) m now1 [] []).1
      = some (.vnum now1) := by
    rw [copyModelToRecord_created schemaFieldNames hc1 hc2 m now1 [] []]
    simp [truthy]
  have hupdated1 : lookupKey "updated_at"
      (copyModelToRecord (addFieldDecorators schemaFieldNames) m now1 [] []).1
      = some (.vnum now1) :=
    copyModelToRecord_updated (addFieldDecorators schemaFieldNames) m now1 [] []
  have hfind2 : findInCollection (coll ++ [(⟨m.id,
        (copyModelToRecord (addFieldDecorators schemaFieldNames) m now1 [] []).1,
        (copyModelToRecord (addFieldDecorators schemaFieldNames) m now1 [] []).2⟩
        : WRecord)]) m2.id
      = some ⟨m.id,
        (copyModelToRecord (addFieldDecorators schemaFieldNames) m now1 [] []).1,
        (copyModelToRecord (addFieldDecorators schemaFieldNames) m now1 [] []).2⟩ := by
    unfold findInCollection at hfresh ⊢
    rw [hid, List.find?_append, hfresh]
    simp
  have hstep2 : saveRecord (addFieldDecorators schemaFieldNames)
      (coll ++ [(⟨m.id,
        (copyModelToRecord (addFieldDecorators schemaFieldNames) m now1 [] []).1,
        (copyModelToRecord (addFieldDecorators schemaFieldNames) m now1 [] []).2⟩
        : WRecord)]) m2 now2
      = ((coll ++ [(⟨m.id,
            (copyModelToRecord (addFieldDecorators schemaFieldNames) m now1 [] []).1,
            (copyModelToRecord (addFieldDecorators schemaFieldNames) m now1 [] []).2⟩
            : WRecord)]).map
          (fun r => if r.id = m2.id
            then ({ id := m.id,
                    raw := (copyModelToRecord (addFieldDecorators schemaFieldNames)
                      m2 now2
                      (copyModelToRecord (addFieldDecorators schemaFieldNames)
                        m now1 [] []).1
                      (copyModelToRecord (addFieldDecorators schemaFieldNames)
                        m now1 [] []).2).1,
                    props := (copyModelToRecord (addFieldDecorators schemaFieldNames)
                      m2 now2
                      (copyModelToRecord (addFieldDecorators schemaFieldNames)
                        m now1 [] []).1
                      (copyModelToRecord (addFieldDecorators schemaFieldNames)
                        m now1 [] []).2).2 } : WRecord)
            else r),
         ({ id := m.id,
            raw := (copyModelToRecord (addFieldDecorators schemaFieldNames)
              m2 now2
              (copyModelToRecord (addFieldDecorators schemaFieldNames) m now1 [] []).1
              (copyModelToRecord (addFieldDecorators schemaFieldNames) m now1 [] []).2).1,
            props := (copyModelToRecord (addFieldDecorators schemaFieldNames)
              m2 now2
              (copyModelToRecord (addFieldDecorators schemaFieldNames) m now1 [] []).1
              (copyModelToRecord (addFieldDecorators schemaFieldNames) m now1 [] []).2).2 }
          : WRecord),
         .UPDATE) := by
    unfold saveRecord
    rw [hfind2]
  have hcreated2 : lookupKey "created_at"
      (copyModelToRecord (addFieldDecorators schemaFieldNames) m2 now2
        (copyModelToRecord (addFieldDecorators schemaFieldNames) m now1 [] []).1
        (copyModelToRecord (addFieldDecorators schemaFieldNames) m now1 [] []).2).1
      = some (.vnum now1) := by
    rw [copyModelToRecord_created schemaFieldNames hc1 hc2 m2 now2 _ _, hcreated1]
    have ht : truthy (some (JSVal.vnum now1)) = true := by
      simp [truthy]
      omega
    rw [if_pos ht]
  have hupdated2 : lookupKey "updated_at"
      (copyModelToRecord (addFieldDecorators schemaFieldNames) m2 now2
        (copyModelToRecord (addFieldDecorators schemaFieldNames) m now1 [] []).1
        (copyModelToRecord (addFieldDecorators schemaFieldNames) m now1 [] []).2).1
      = some (.vnum now2) :=
    copyModelToRecord_updated (addFieldDecorators schemaFieldNames) m2 now2 _ _
  have hgen_created : ∀ (raw props : List (String × JSVal)) (now : Nat),
      truthy (lookupKey "created_at" raw) = true →
      lookupKey "created_at"
        (copyModelToRecord (addFieldDecorators schemaFieldNames) m now raw props).1
        = lookupKey "created_at" raw := by
    intro raw props now ht
    rw [copyModelToRecord_created schemaFieldNames hc1 hc2 m now raw props,
      if_pos ht]
  rw [hstep1]
  refine ⟨rfl, rfl, hcreated1, hupdated1,
    (fun raw props now =>
      copyModelToRecord_updated (addFieldDecorators schemaFieldNames) m now raw props),
    hgen_created, ?_, ?_, ?_, ?_, hmono⟩
  · rw [hstep2]
  · rw [hstep2]
    simp
  · rw [hstep2]
    exact hcreated2
  · rw [hstep2]
    exact hupdated2

/-- C1 witness: the save contract at concrete inputs — a realistic schema
whose fields include `createdAt`/`updatedAt`, an empty collection, a model
`"a"` that even carries its own `createdAt` entry (which lands on a plain
property, not on `_raw.created_at`), saved at time 1 and re-saved with a
changed field at time 2. -/
theorem save_insert_then_update_witness :
    (saveRecord (addFieldDecorators ["id", "title", "createdAt", "updatedAt"])
      [] ⟨"a", [("title", .vstr "x"), ("createdAt", .vnum 5)]⟩ 1).2.2 = .INSERT
    ∧ (saveRecord (addFieldDecorators ["id", "title", "createdAt", "updatedAt"])
        [] ⟨"a", [("title", .vstr "x"), ("createdAt", .vnum 5)]⟩ 1).2.1.id = "a"
    ∧ lookupKey "created_at"
        (saveRecord (addFieldDecorators ["id", "title", "createdAt", "updatedAt"])
          [] ⟨"a", [("title", .vstr "x"), ("createdAt", .vnum 5)]⟩ 1).2.1.raw
        = some (.vnum 1)
    ∧ lookupKey "updated_at"
        (saveRecord (addFieldDecorators ["id", "title", "createdAt", "updatedAt"])
          [] ⟨"a", [("title", .vstr "x"), ("createdAt", .vnum 5)]⟩ 1).2.1.raw
        = some (.vnum 1)
    ∧ (∀ (raw props : List (String × JSVal)) (now : Nat),
        lookupKey "updated_at"
          (copyModelToRecord (addFieldDecorators ["id", "title", "createdAt", "updatedAt"])
            ⟨"a", [("title", .vstr "x"), ("createdAt", .vnum 5)]⟩ now raw props).1
          = some (.vnum now))
    ∧ (∀ (raw props : List (String × JSVal)) (now : Nat),
        truthy (lookupKey "created_at" raw) = true →
        lookupKey "created_at"
          (copyModelToRecord (addFieldDecorators ["id", "title", "createdAt", "updatedAt"])
            ⟨"a", [("title", .vstr "x"), ("createdAt", .vnum 5)]⟩ now raw props).1
          = lookupKey "created_at" raw)
    ∧ (saveRecord (addFieldDecorators ["id", "title", "createdAt", "updatedAt"])
        (saveRecord (addFieldDecorators ["id", "title", "createdAt", "updatedAt"])
          [] ⟨"a", [("title", .vstr "x"), ("createdAt", .vnum 5)]⟩ 1).1
        ⟨"a", [("title", .vstr "y")]⟩ 2).2.2 = .UPDATE
    ∧ (saveRecord (addFieldDecorators ["id", "title", "createdAt", "updatedAt"])
        (saveRecord (addFieldDecorators ["id", "title", "createdAt", "updatedAt"])
          [] ⟨"a", [("title", .vstr "x"), ("createdAt", .vnum 5)]⟩ 1).1
        ⟨"a", [("title", .vstr "y")]⟩ 2).1.length
        = (saveRecord (addFieldDecorators ["id", "title", "createdAt", "updatedAt"])
          [] ⟨"a", [("title", .vstr "x"), ("createdAt", .vnum 5)]⟩ 1).1.length
    ∧ lookupKey "created_at"
        (saveRecord (addFieldDecorators ["id", "title", "createdAt", "updatedAt"])
          (saveRecord (addFieldDecorators ["id", "title", "createdAt", "updatedAt"])
            [] ⟨"a", [("title", .vstr "x"), ("createdAt", .vnum 5)]⟩ 1).1
          ⟨"a", [("title", .vstr "y")]⟩ 2).2.1.raw
        = some (.vnum 1)
    ∧ lookupKey "updated_at"
        (saveRecord (addFieldDecorators ["id", "title", "createdAt", "updatedAt"])
          (saveRecord (addFieldDecorators ["id", "title", "createdAt", "updatedAt"])
            [] ⟨"a", [("title", .vstr "x"), ("createdAt", .vnum 5)]⟩ 1).1
          ⟨"a", [("title", .vstr "y")]⟩ 2).2.1.raw
        = some (.vnum 2)
    ∧ 1 ≤ 2 :=
  save_insert_then_update ["id", "title", "createdAt", "updatedAt"] []
    ⟨"a", [("title", .vstr "x"), ("createdAt", .vnum 5)]⟩
    ⟨"a", [("title", .vstr "y")]⟩ 1 2
    (by decide) (by decide) rfl rfl (by decide) (by decide)

/-- C6 witness: with TTL 100, an entry inserted at time 0 misses and is
removed when looked up at time 101, a never-inserted fingerprint gives the
same miss, and a lookup at exactly the TTL boundary (time 100) hits. -/
theorem cache_ttl_expiry_witness :
    getFromCache 100 101 "t:a:" [("t:a:", (⟨(7 : Nat), 0⟩ : CacheEntry Nat))]
        = (none, mapDelete "t:a:" [("t:a:", ⟨7, 0⟩)])
    ∧ (getFromCache 100 101 "t:a:"
        (mapDelete "t:a:" [("t:a:", (⟨(7 : Nat), 0⟩ : CacheEntry Nat))])).1 = none
    ∧ getFromCache 100 100 "t:a:" [("t:a:", (⟨(7 : Nat), 0⟩ : CacheEntry Nat))]
        = (some 7, [("t:a:", ⟨7, 0⟩)])
    ∧ getFromCache 100 101 "t:zzz:" [("t:a:", (⟨(7 : Nat), 0⟩ : CacheEntry Nat))]
        = (none, [("t:a:", ⟨7, 0⟩)]) := by
  have h1 := (cache_ttl_expiry (α := Nat) 100 101 "t:a:"
    [("t:a:", ⟨7, 0⟩)] (by decide)).1 ⟨7, 0⟩ (by decide) (by decide)
  have h2 := (cache_ttl_expiry (α := Nat) 100 100 "t:a:"
    [("t:a:", ⟨7, 0⟩)] (by decide)).2.1 ⟨7, 0⟩ (by decide) (by decide)
  have h3 := (cache_ttl_expiry (α := Nat) 100 101 "t:zzz:"
    [("t:a:", ⟨7, 0⟩)] (by decide)).2.2 (by decide)
  exact ⟨h1.1, h1.2, h2, h3⟩

/-- A concrete adapter instance on which `setup()` has not completed. -/
def uninitState : AdapterState :=
  { isInitialized := false, dbPresent := false, adapterPresent := false,
    collections := [], subscriptions := 3, queryCache := [] }

/-- C3 counterexample: the claim fails as stated for `observe` and
`stopObserve`.  On an uninitialized adapter, `stopObserve()` performs no
initialization check at all and returns normally (there is no failure path in
its body), and subscribing to `observe()`'s result reports a
"Collection not found" error through the observer — at subscribe time, not
fail-fast, and not an "adapter not initialized" error. -/
theorem observe_stopObserve_no_init_guard_cex :
    stopObserveOp uninitState
      = .ok { uninitState with subscriptions := 0, queryCache := [] }
    ∧ observeSubscribe true uninitState "Todo"
      = (.subscribeError "Collection not found: todo", uninitState) :=
  ⟨rfl, rfl⟩

/-- C3 (amended): every public storage operation other than `setup()` that
goes through `ensureInitialized` — `query`, `queryOne`, `save`, `delete`,
`batchSave`, `batch`, `clear` and `unsafeResetDatabase` — fails fast with the
"adapter not initialized" error, before touching any collection or backend
state, when called while the adapter is not initialized; `observe` and
`stopObserve` perform no such check (see the counterexample). -/
theorem uninitialized_operations_fail (s : AdapterState)
    (h : s.isInitialized = false) (fetch : FetchFn)
    (setters : List (String × FieldSetter))
    (cacheTTL maxCacheSize now : Nat) (modelName : String)
    (predicate pagination : Option JSVal) (firstOrLast : QueryOne)
    (model : SaveModel) (models : List SaveModel) (syncable : Bool)
    (instanceId : Option String) (condition : Option JSVal)
    (operations : List BatchDescriptor) :
    queryOp fetch cacheTTL maxCacheSize now s modelName predicate pagination
        = .error notInitializedMsg
    ∧ queryOneOp s modelName firstOrLast = .error notInitializedMsg
    ∧ saveOp setters s modelName model now = .error notInitializedMsg
    ∧ deleteOp fetch syncable s modelName instanceId condition
        = .error notInitializedMsg
    ∧ batchSaveOp setters s modelName models now = .error notInitializedMsg
    ∧ batchOp s operations = .error notInitializedMsg
    ∧ clearOp s = .error notInitializedMsg
    ∧ unsafeResetDatabaseOp s = .error notInitializedMsg := by
  simp [queryOp, queryOneOp, saveOp, deleteOp, batchSaveOp, batchOp, clearOp,
    unsafeResetDatabaseOp, ensureInitialized, h]

/-- C3 witness: the eight guarded operations all fail with the
"adapter not initialized" message on the concrete uninitialized instance. -/
theorem uninitialized_operations_fail_witness :
    queryOp (fun _ _ _ => []) 0 0 0 uninitState "Todo" none none
        = .error notInitializedMsg
    ∧ queryOneOp uninitState "Todo" .FIRST = .error notInitializedMsg
    ∧ saveOp [] uninitState "Todo" ⟨"a", []⟩ 0 = .error notInitializedMsg
    ∧ deleteOp (fun _ _ _ => []) false uninitState "Todo" none none
        = .error notInitializedMsg
    ∧ batchSaveOp [] uninitState "Todo" [] 0 = .error notInitializedMsg
    ∧ batchOp uninitState [] = .error notInitializedMsg
    ∧ clearOp uninitState = .error notInitializedMsg
    ∧ unsafeResetDatabaseOp uninitState = .error notInitializedMsg :=
  uninitialized_operations_fail uninitState rfl (fun _ _ _ => []) [] 0 0 0 "Todo"
    none none .FIRST ⟨"a", []⟩ [] false none none []

/-- A concrete initialized adapter instance with no registered collections. -/
def initEmptyState : AdapterState :=
  { isInitialized := true, dbPresent := true, adapterPresent := true,
    collections := [], subscriptions := 0, queryCache := [] }

/-- C8 counterexample: the claim fails as stated for `batch()`.  On an
initialized adapter with no registered collections, a `batch` of a `create`
descriptor naming the unregistered collection `"ghost"` succeeds — the source
never consults the collection registry in `batch`, it only translates the
descriptors and forwards them to the native `db.batch` — instead of failing
with a "collection not found" error. -/
theorem batch_no_collection_check_cex :
    batchOp initEmptyState [⟨"create", some "ghost", some "id1"⟩]
      = .ok ({ initEmptyState with queryCache := [] },
             [⟨"create", some "ghost", some "id1"⟩]) :=
  rfl

/-- C8 (amended): on an initialized adapter, for a model type whose table was
never registered, `query` returns an empty list and `queryOne` returns
absent — neither raises — while `save`, `delete` and `batchSave` fail with the
hard "Collection not found" error; `batch`, by contrast, performs no
collection-registry check at all (see the counterexample). -/
theorem missing_collection_behavior (s : AdapterState)
    (hinit : s.isInitialized = true) (fetch : FetchFn)
    (setters : List (String × FieldSetter))
    (cacheTTL maxCacheSize now : Nat) (modelName : String)
    (predicate pagination : Option JSVal) (firstOrLast : QueryOne)
    (model : SaveModel) (models : List SaveModel) (syncable : Bool)
    (instanceId : Option String) (condition : Option JSVal)
    (hmiss : lookupKey (getTableName modelName) s.collections = none) :
    queryOp fetch cacheTTL maxCacheSize now s modelName predicate pagination
        = .ok ([], s)
    ∧ queryOneOp s modelName firstOrLast = .ok none
    ∧ saveOp setters s modelName model now
        = .error ("Collection not found: " ++ getTableName modelName)
    ∧ deleteOp fetch syncable s modelName instanceId condition
        = .error ("Collection not found: " ++ getTableName modelName)
    ∧ batchSaveOp setters s modelName models now
        = .error ("Collection not found: " ++ getTableName modelName) := by
  simp [queryOp, queryOneOp, saveOp, deleteOp, batchSaveOp, ensureInitialized,
    hinit, hmiss]

/-- C8 witness: the five collection-aware operations at concrete inputs on
the initialized instance with no registered tables. -/
theorem missing_collection_behavior_witness :
    queryOp (fun _ _ _ => []) 0 0 0 initEmptyState "Todo" none none
        = .ok ([], initEmptyState)
    ∧ queryOneOp initEmptyState "Todo" .FIRST = .ok none
    ∧ saveOp [] initEmptyState "Todo" ⟨"a", []⟩ 0
        = .error ("Collection not found: " ++ getTableName "Todo")
    ∧ deleteOp (fun _ _ _ => []) false initEmptyState "Todo" none none
        = .error ("Collection not found: " ++ getTableName "Todo")
    ∧ batchSaveOp [] initEmptyState "Todo" [] 0
        = .error ("Collection not found: " ++ getTableName "Todo") :=
  missing_collection_behavior initEmptyState rfl (fun _ _ _ => []) [] 0 0 0 "Todo"
    none none .FIRST ⟨"a", []⟩ [] false none none rfl

/-- C4 counterexample: the claim fails as stated on the dispatcher-type
property.  When all four construction strategies throw, the adapter falls
back to the in-memory stand-in, but `_dispatcherType` is never assigned in
the fallback path: it keeps its field-initializer value `'jsi'` — a real
tier's identifier — rather than exposing a stand-in identifier (the
`DispatcherType` union has no stand-in member at all). -/
theorem fallback_dispatcher_cex :
    (createOptimalAdapter (β := Unit) (fun _ => .error "unavailable")
        .jsi).dispatcherType = DispatcherType.jsi
    ∧ (createOptimalAdapter (β := Unit) (fun _ => .error "unavailable")
        .jsi).adapter = SelectedAdapter.inMemory createInMemoryAdapter :=
  ⟨rfl, rfl⟩

/-- C4 (amended): backend selection tries `jsi`, `asynchronous`, `loki`,
`sqlite-node` in that fixed order, a throw at one tier only advancing to the
next, and records the winning tier's identifier in the dispatcher-type
property; when every tier throws, the non-persistent in-memory stand-in is
constructed and every read through it returns an empty result without error —
but the dispatcher-type property is left at its previous value (the `'jsi'`
field default on a fresh adapter), not a stand-in identifier. -/
theorem backend_selection_order {β : Type}
    (strategyResults : DispatcherType → Except String β) (d0 : DispatcherType) :
    (∀ a, strategyResults .jsi = .ok a →
        createOptimalAdapter strategyResults d0 = ⟨.tier a, .jsi⟩)
    ∧ (∀ e1 a, strategyResults .jsi = .error e1 →
        strategyResults .asynchronous = .ok a →
        createOptimalAdapter strategyResults d0 = ⟨.tier a, .asynchronous⟩)
    ∧ (∀ e1 e2 a, strategyResults .jsi = .error e1 →
        strategyResults .asynchronous = .error e2 →
        strategyResults .loki = .ok a →
        createOptimalAdapter strategyResults d0 = ⟨.tier a, .loki⟩)
    ∧ (∀ e1 e2 e3 a, strategyResults .jsi = .error e1 →
        strategyResults .asynchronous = .error e2 →
        strategyResults .loki = .error e3 →
        strategyResults .sqliteNode = .ok a →
        createOptimalAdapter strategyResults d0 = ⟨.tier a, .sqliteNode⟩)
    ∧ (∀ e1 e2 e3 e4, strategyResults .jsi = .error e1 →
        strategyResults .asynchronous = .error e2 →
        strategyResults .loki = .error e3 →
        strategyResults .sqliteNode = .error e4 →
        createOptimalAdapter strategyResults d0
          = ⟨.inMemory createInMemoryAdapter, d0⟩)
    ∧ (∀ a id, inMemoryFind a id = none)
    ∧ (∀ a, inMemoryQuery a = []) := by
  refine ⟨?_, ?_, ?_, ?_, ?_, fun _ _ => rfl, fun _ => rfl⟩
  · intro a h1
    simp [createOptimalAdapter, h1]
  · intro e1 a h1 h2
    simp [createOptimalAdapter, h1, h2]
  · intro e1 e2 a h1 h2 h3
    simp [createOptimalAdapter, h1, h2, h3]
  · intro e1 e2 e3 a h1 h2 h3 h4
    simp [createOptimalAdapter, h1, h2, h3, h4]
  · intro e1 e2 e3 e4 h1 h2 h3 h4
    simp [createOptimalAdapter, h1, h2, h3, h4]

/-- C4 witness: with the first two tiers throwing and `loki` succeeding,
selection returns the `loki` backend and records its identifier; the stand-in
reads are empty. -/
theorem backend_selection_order_witness :
    createOptimalAdapter (β := Unit)
        (fun t => if t = .loki then .ok () else .error "unavailable") .jsi
      = ⟨.tier (), .loki⟩
    ∧ inMemoryFind createInMemoryAdapter "x" = none
    ∧ inMemoryQuery createInMemoryAdapter = [] := by
  have h := backend_selection_order (β := Unit)
    (fun t => if t = .loki then .ok () else .error "unavailable") .jsi
  exact ⟨h.2.2.1 "unavailable" "unavailable" () rfl rfl rfl,
    h.2.2.2.2.2.1 createInMemoryAdapter "x", h.2.2.2.2.2.2 createInMemoryAdapter⟩

/-- C7: a condition object carrying none of the twelve supported operator
keys compiles to `null` (`translateCondition` returns `none`), and the
predicate compiler simply omits it from the compiled condition list — the
surrounding entries still compile, so the query proceeds with the remaining
(weaker or absent) filter, and no error is raised (the translation functions
are total: fail-open, never fail-closed). -/
theorem unsupported_condition_dropped (columnName fieldName : String)
    (c : Condition)
    (h : c.eq = none ∧ c.ne = none ∧ c.gt = none ∧ c.ge = none
      ∧ c.lt = none ∧ c.le = none ∧ c.contains = none ∧ c.notContains = none
      ∧ c.beginsWith = none ∧ c.between = none ∧ c.inOp = none ∧ c.notIn = none) :
    translateCondition columnName c = none
    ∧ ∀ pre post : List (String × Condition),
        translatePredicateObject (.fields (pre ++ (fieldName, c) :: post))
          = translatePredicateObject (.fields (pre ++ post)) := by
  obtain ⟨h1, h2, h3, h4, h5, h6, h7, h8, h9, h10, h11, h12⟩ := h
  have hnone : translateCondition columnName c = none := by
    unfold translateCondition
    rw [h1, h2, h3, h4, h5, h6, h7, h8, h9, h10, h11, h12]
  have hnone2 : ∀ col : String, translateCondition col c = none := by
    intro col
    unfold translateCondition
    rw [h1, h2, h3, h4, h5, h6, h7, h8, h9, h10, h11, h12]
  refine ⟨hnone, ?_⟩
  intro pre post
  simp [translatePredicateObject, List.filterMap_append, List.filterMap_cons,
    hnone2]

/-- A condition object carrying no operator keys at all. -/
def emptyCondition : Condition :=
  { eq := none, ne := none, gt := none, ge := none, lt := none, le := none,
    contains := none, notContains := none, beginsWith := none, between := none,
    inOp := none, notIn := none }

/-- C7 witness: the empty condition object (no operator keys) is dropped from
a compiled field list, leaving the neighbouring `eq` condition intact. -/
theorem unsupported_condition_dropped_witness :
    translateCondition "priority" emptyCondition = none
    ∧ translatePredicateObject
        (.fields ([("title", { eq := some (.vstr "x") })]
          ++ ("bad", emptyCondition) :: []))
      = translatePredicateObject
        (.fields ([("title", { eq := some (.vstr "x") })] ++ [])) := by
  have h := unsupported_condition_dropped "priority" "bad" emptyCondition
    ⟨rfl, rfl, rfl, rfl, rfl, rfl, rfl, rfl, rfl, rfl, rfl, rfl⟩
  exact ⟨h.1, h.2 [("title", { eq := some (.vstr "x") })] []⟩

/-- C10: for every table name, pagination value and pair of function-valued
predicates (distinguished by tag, with arbitrarily different semantics), the
cache key is identical — `JSON.stringify` of any function is `undefined`,
rendered as the literal text `"undefined"` inside the fingerprint — and
consequently a `query()` with one function predicate is answered, within the
TTL window, by the cached result of an earlier `query()` with the other
function predicate on the same table and pagination, regardless of what the
second query's native execution would have returned. -/
theorem function_predicate_cache_collision (t : String)
    (pagination : Option JSVal) (i j : Nat) :
    getCacheKey t (some (.vfun i)) pagination
      = getCacheKey t (some (.vfun j)) pagination
    ∧ ∀ (fetch1 fetch2 : FetchFn) (cacheTTL maxCacheSize now1 now2 : Nat)
        (s : AdapterState) (modelName : String) (records : List WRecord),
        s.isInitialized = true →
        getTableName modelName = t →
        lookupKey t s.collections = some records →
        lookupKey (getCacheKey t (some (.vfun i)) pagination) s.queryCache = none →
        now2 - now1 ≤ cacheTTL →
        ∃ s1 s2 : AdapterState,
          queryOp fetch1 cacheTTL maxCacheSize now1 s modelName
              (some (.vfun i)) pagination
            = .ok (fetch1 t (some (.vfun i)) pagination, s1)
          ∧ queryOp fetch2 cacheTTL maxCacheSize now2 s1 modelName
              (some (.vfun j)) pagination
            = .ok (fetch1 t (some (.vfun i)) pagination, s2) := by
  have hkey : getCacheKey t (some (.vfun i)) pagination
      = getCacheKey t (some (.vfun j)) pagination := rfl
  refine ⟨hkey, ?_⟩
  intro fetch1 fetch2 cacheTTL maxCacheSize now1 now2 s modelName records
    hinit htn hcoll hfresh httl
  refine ⟨{ s with
            queryCache := setCache maxCacheSize now1
              (getCacheKey t (some (.vfun i)) pagination)
              (fetch1 t (some (.vfun i)) pagination) s.queryCache },
    { s with
      queryCache := setCache maxCacheSize now1
        (getCacheKey t (some (.vfun i)) pagination)
        (fetch1 t (some (.vfun i)) pagination) s.queryCache }, ?_, ?_⟩
  · unfold queryOp
    rw [htn]
    simp only [ensureInitialized, hinit, if_true, hcoll, getFromCache, hfresh]
  · unfold queryOp
    rw [htn]
    simp only [ensureInitialized, hinit, if_true, hcoll]
    rw [show getCacheKey t (some (.vfun j)) pagination
      = getCacheKey t (some (.vfun i)) pagination from rfl]
    have hhit : lookupKey (getCacheKey t (some (.vfun i)) pagination)
        (setCache maxCacheSize now1 (getCacheKey t (some (.vfun i)) pagination)
          (fetch1 t (some (.vfun i)) pagination) s.queryCache)
        = some ⟨fetch1 t (some (.vfun i)) pagination, now1⟩ := by
      unfold setCache
      exact lookupKey_mapSet_self _ _ _
    simp only [getFromCache, hhit, Nat.not_lt.mpr httl, if_false]

/-- C10 witness: the collision at concrete inputs — two different function
predicates (tags 1 and 2), a registered `todo` table, and a second fetch
function that would return a different record list; the second query still
returns the first query's cached (empty) result. -/
theorem function_predicate_cache_collision_witness :
    getCacheKey "todo" (some (.vfun 1)) none
      = getCacheKey "todo" (some (.vfun 2)) none
    ∧ ∃ s1 s2 : AdapterState,
        queryOp (fun _ _ _ => []) 1000 100 0
            { isInitialized := true, dbPresent := true, adapterPresent := true,
              collections := [("todo", [])], subscriptions := 0, queryCache := [] }
            "Todo" (some (.vfun 1)) none
          = .ok ((fun (_ : String) (_ _ : Option JSVal) => ([] : List WRecord))
              "todo" (some (.vfun 1)) none, s1)
        ∧ queryOp (fun _ _ _ => [⟨"r1", [], []⟩]) 1000 100 0 s1
            "Todo" (some (.vfun 2)) none
          = .ok ((fun (_ : String) (_ _ : Option JSVal) => ([] : List WRecord))
              "todo" (some (.vfun 1)) none, s2) := by
  have h := (function_predicate_cache_collision "todo" none 1 2).2
    (fun _ _ _ => []) (fun _ _ _ => [⟨"r1", [], []⟩]) 1000 100 0 0
    { isInitialized := true, dbPresent := true, adapterPresent := true,
      collections := [("todo", [])], subscriptions := 0, queryCache := [] }
    "Todo" [] rfl rfl rfl rfl (by decide)
  exact ⟨rfl, h⟩

end WatermelonAdapter
